import Mathlib

/-! # The ban list of the security module (`src/sec-mod-ban.c`)

A shallow embedding of the failed-login table of `sec-mod-ban.c` and the
properties of its operations.

Conventions of the embedding

* `time_t` values are integers (`Int`); the value `time(0)` returns is the
  argument `now` of every operation that reads the clock.
* `unsigned` values are natural numbers, reduced modulo `UINT_MOD` where the C
  code computes with them.
* a `const char *` argument is `Option (List Nat)`: `none` is the null pointer,
  `some bytes` the bytes the pointer refers to, read up to the first NUL byte
  (the end of the list counts as a NUL).
* the pointer `sec->ban_db` is `ban_db_ptr`: null, a live table, or a pointer to
  a table that was released. An operation that dereferences a released table
  has no defined result (`none`).
* a pointer to an entry of the table is the offset of its slot.
* the outcome of the two allocations of `add_ip_to_ban_list` is an argument.
-/

namespace SecModBan

/-! ## Definitions -/

/-- The number of values of the C type `unsigned` (32 bits). -/
def UINT_MOD : Nat := 4294967296

/-- Constants and functions that `sec-mod-ban.c` takes from headers outside the
translation unit: the size `MAX_IP_STR` of the `ip` buffer, the threshold
`MAX_PASSWORD_TRIES`, and `hash_any` of `ccan/hash`, applied to the bytes of the
key and the base value. -/
structure Headers where
  MAX_IP_STR : Nat
  MAX_PASSWORD_TRIES : Nat
  hash_any : List Nat → Nat → Nat

/-- The struct `ban_entry_st`. The field `ip` holds the bytes of the buffer
`char ip[MAX_IP_STR]`. -/
structure ban_entry_st where
  ip : List Nat
  failed_attempts : Nat
  expires : Int
deriving DecidableEq

/-- The C string stored in a byte sequence: the bytes before the first NUL. -/
def c_str (bytes : List Nat) : List Nat :=
  bytes.takeWhile (fun c => c != 0)

/-- The string left in a buffer of `size` bytes by `strlcpy(dst, src, size)`: at
most `size - 1` bytes of the string `src`. -/
def strlcpy (size : Nat) (src : List Nat) : List Nat :=
  (c_str src).take (size - 1)

/-- The function `rehash`: `hash_any(e->ip, strlen(e->ip), 0)`. -/
def rehash (H : Headers) (e : ban_entry_st) : Nat :=
  H.hash_any (c_str e.ip) 0

/-- The function `ban_entry_cmp`: 1 when `strcmp(c1->ip, c2->ip) == 0`, else 0. -/
def ban_entry_cmp (c1 c2 : ban_entry_st) : Bool :=
  if c_str c1.ip = c_str c2.ip then true else false

/-- Modelled from the spec: `struct htable` of `ccan/htable`, whose code is not
part of the sources. The spec describes the store as an association from
identifier to entry whose iteration order is irrelevant and whose sweep visits
every entry once although it deletes during the iteration. The table is a
sequence of slots; a slot holds an entry or is unused (`none`: empty or
deleted). -/
structure htable where
  table : List (Option ban_entry_st)
deriving DecidableEq

/-- Modelled from the spec: the field `elems` of `struct htable`, the number of
entries currently tracked. The counter is taken without a width. -/
def htable.elems (ht : htable) : Nat :=
  (ht.table.filterMap id).length

/-- The entries held by a table, in slot order. -/
def htable.entries (ht : htable) : List ban_entry_st :=
  ht.table.filterMap id

/-- The first used slot of `slots` whose entry satisfies `p`, with its offset,
where `off` is the offset of the head of `slots`. -/
def first_valid (p : ban_entry_st → Bool) :
    List (Option ban_entry_st) → Nat → Option (Nat × ban_entry_st)
  | [], _ => none
  | none :: rest, off => first_valid p rest (off + 1)
  | some e :: rest, off => if p e then some (off, e) else first_valid p rest (off + 1)

/-- Modelled from the spec: `htable_init`, the empty table. -/
def htable_init : htable := ⟨[]⟩

/-- Modelled from the spec: `htable_get(ht, h, cmp, ptr)`, the first entry with
hash `h` that `cmp` accepts; the hash of an entry is `rehash`, the function
`sec_mod_ban_db_init` installs. -/
def htable_get (H : Headers) (ht : htable) (h : Nat)
    (cmp : ban_entry_st → ban_entry_st → Bool) (ptr : ban_entry_st) :
    Option (Nat × ban_entry_st) :=
  first_valid (fun c => rehash H c == h && cmp c ptr) ht.table 0

/-- Modelled from the spec: a successful `htable_add(ht, hash, e)`; the entry
takes a new slot, whose offset is returned with the table. -/
def htable_add (ht : htable) (e : ban_entry_st) : htable × Nat :=
  (⟨ht.table ++ [some e]⟩, ht.table.length)

/-- Modelled from the spec: `htable_first(ht, &iter)`. -/
def htable_first (ht : htable) : Option (Nat × ban_entry_st) :=
  first_valid (fun _ => true) ht.table 0

/-- Modelled from the spec: `htable_next(ht, &iter)`, the first used slot after
the iterator. -/
def htable_next (ht : htable) (iter : Nat) : Option (Nat × ban_entry_st) :=
  first_valid (fun _ => true) (ht.table.drop (iter + 1)) (iter + 1)

/-- Modelled from the spec: `htable_delval(ht, &iter)`, which marks the slot of
the iterator deleted. -/
def htable_delval (ht : htable) (iter : Nat) : htable :=
  ⟨ht.table.set iter none⟩

/-- An assignment to the fields of the entry in slot `slot`, through the pointer
`e`. -/
def htable_store (ht : htable) (slot : Nat) (e : ban_entry_st) : htable :=
  ⟨ht.table.set slot (some e)⟩

/-- The pointer `sec->ban_db`. -/
inductive ban_db_ptr where
  | NULL
  | live (db : htable)
  | released
deriving DecidableEq

/-- The messages `sec-mod-ban.c` passes to `seclog`, with the arguments of the
format string. -/
inductive seclog_msg where
  | could_not_add
  | added_to_ban_list (ip : List Nat) (failed_attempts : Nat) (reset_time : Int)
  | added_failed_attempt (ip : List Nat) (reset_time : Int)
deriving DecidableEq

/-- The syslog priority `LOG_INFO`. -/
def LOG_INFO : Nat := 6

/-- The syslog priority `LOG_DEBUG`. -/
def LOG_DEBUG : Nat := 7

/-- The part of `sec_mod_st` that `sec-mod-ban.c` uses: the pointer `ban_db`,
and the lines handed to `seclog` so far. -/
structure sec_mod_st where
  ban_db : ban_db_ptr
  log : List (Nat × seclog_msg)
deriving DecidableEq

/-- The call `seclog(sec, level, ...)`. -/
def seclog (sec : sec_mod_st) (level : Nat) (msg : seclog_msg) : sec_mod_st :=
  { sec with log := sec.log ++ [(level, msg)] }

/-- The function `sec_mod_ban_db_init`: the new state and whether a table was returned
(`talloc_ok = false`: `talloc` returned NULL). -/
def sec_mod_ban_db_init (talloc_ok : Bool) (sec : sec_mod_st) : sec_mod_st × Bool :=
  if talloc_ok then ({ sec with ban_db := .live htable_init }, true)
  else (sec, false)

/-- The function `sec_mod_ban_db_deinit`. -/
def sec_mod_ban_db_deinit (sec : sec_mod_st) : Option sec_mod_st :=
  match sec.ban_db with
  | .NULL => some sec
  | .live _ => some { sec with ban_db := .released }
  | .released => none

/-- The function `sec_mod_ban_db_elems`. -/
def sec_mod_ban_db_elems (sec : sec_mod_st) : Option Nat :=
  match sec.ban_db with
  | .NULL => some 0
  | .live db => some db.elems
  | .released => none

/-- The key `t` that the operations build on the stack for the lookup:
`strlcpy(t.ip, ip, sizeof(t.ip))`. -/
def lookup_key (H : Headers) (ip : List Nat) : ban_entry_st :=
  { ip := strlcpy H.MAX_IP_STR ip, failed_attempts := 0, expires := 0 }

/-- Lines 139 to 148 of `add_ip_to_ban_list`: the update of the entry `e` in slot
`slot` and the log line. -/
def add_ip_record (H : Headers) (sec : sec_mod_st) (db : htable) (slot : Nat)
    (e : ban_entry_st) (ip : List Nat) (attempts : Nat) (reset_time : Int) : sec_mod_st :=
  let e1 : ban_entry_st :=
    { e with failed_attempts := (e.failed_attempts + attempts) % UINT_MOD,
             expires := reset_time }
  let sec1 : sec_mod_st := { sec with ban_db := .live (htable_store db slot e1) }
  if e1.failed_attempts ≥ H.MAX_PASSWORD_TRIES then
    seclog sec1 LOG_INFO (.added_to_ban_list (c_str ip) e1.failed_attempts reset_time)
  else
    seclog sec1 LOG_DEBUG (.added_failed_attempt (c_str ip) reset_time)

/-- The function `add_ip_to_ban_list`. `talloc_ok = false`: `talloc_zero` returns NULL;
`htable_add_ok = false`: `htable_add` returns 0. -/
def add_ip_to_ban_list (H : Headers) (now : Int) (talloc_ok htable_add_ok : Bool)
    (sec : sec_mod_st) (ip : Option (List Nat)) (attempts : Nat) (reset_time : Int) :
    Option sec_mod_st :=
  match sec.ban_db, ip with
  | .NULL, _ => some sec
  | _, none => some sec
  | .released, some ip => if ip.headD 0 = 0 then some sec else none
  | .live db, some ip =>
    if ip.headD 0 = 0 then some sec
    else
      let t := lookup_key H ip
      match htable_get H db (rehash H t) ban_entry_cmp t with
      | none =>
        if talloc_ok then
          let e : ban_entry_st :=
            { ip := strlcpy H.MAX_IP_STR ip, failed_attempts := 0, expires := 0 }
          if htable_add_ok then
            let r := htable_add db e
            some (add_ip_record H sec r.1 r.2 e ip attempts reset_time)
          else some (seclog sec LOG_INFO .could_not_add)
        else some sec
      | some (slot, e) =>
        let e0 : ban_entry_st := if now > e.expires then { e with failed_attempts := 0 } else e
        some (add_ip_record H sec db slot e0 ip attempts reset_time)

/-- The function `remove_ip_from_ban_list`. -/
def remove_ip_from_ban_list (H : Headers) (sec : sec_mod_st) (ip : Option (List Nat)) :
    Option sec_mod_st :=
  match sec.ban_db, ip with
  | .NULL, _ => some sec
  | _, none => some sec
  | .released, some ip => if ip.headD 0 = 0 then some sec else none
  | .live db, some ip =>
    if ip.headD 0 = 0 then some sec
    else
      let t := lookup_key H ip
      match htable_get H db (rehash H t) ban_entry_cmp t with
      | some (slot, e) =>
        some { sec with
          ban_db := .live (htable_store db slot { e with failed_attempts := 0, expires := 0 }) }
      | none => some sec

/-- The function `check_if_banned`. -/
def check_if_banned (H : Headers) (now : Int) (sec : sec_mod_st) (ip : Option (List Nat)) :
    Option Nat :=
  match sec.ban_db, ip with
  | .NULL, _ => some 0
  | _, none => some 0
  | .released, some ip => if ip.headD 0 = 0 then some 0 else none
  | .live db, some ip =>
    if ip.headD 0 = 0 then some 0
    else
      let t := lookup_key H ip
      match htable_get H db (rehash H t) ban_entry_cmp t with
      | some (_, e) =>
        if now > e.expires then some 0
        else if e.failed_attempts ≥ H.MAX_PASSWORD_TRIES then some 1
        else some 0
      | none => some 0

/-- The `while` loop of `cleanup_banned_entries`; `t` is the entry under the
iterator with the iterator's offset, `fuel` bounds the number of rounds. -/
def cleanup_loop (now : Int) : Nat → htable → Option (Nat × ban_entry_st) → htable
  | 0, db, _ => db
  | _ + 1, db, none => db
  | fuel + 1, db, some (iter, t) =>
    let db1 := if now ≥ t.expires then htable_delval db iter else db
    cleanup_loop now fuel db1 (htable_next db1 iter)

/-- The function `cleanup_banned_entries`. The loop runs at most once for every slot. -/
def cleanup_banned_entries (now : Int) (sec : sec_mod_st) : Option sec_mod_st :=
  match sec.ban_db with
  | .NULL => some sec
  | .released => none
  | .live db =>
    some { sec with ban_db := .live (cleanup_loop now db.table.length db (htable_first db)) }

/-- A call of one of the four operations on the table. -/
inductive ban_call where
  | add (ip : Option (List Nat)) (attempts : Nat) (reset_time : Int)
      (talloc_ok htable_add_ok : Bool)
  | remove (ip : Option (List Nat))
  | check (ip : Option (List Nat))
  | cleanup
deriving DecidableEq

/-- The state after a call made at time `now`. -/
def ban_call.exec (H : Headers) (now : Int) (sec : sec_mod_st) : ban_call → Option sec_mod_st
  | .add ip attempts reset_time talloc_ok htable_add_ok =>
    add_ip_to_ban_list H now talloc_ok htable_add_ok sec ip attempts reset_time
  | .remove ip => remove_ip_from_ban_list H sec ip
  | .check ip => (check_if_banned H now sec ip).map (fun _ => sec)
  | .cleanup => cleanup_banned_entries now sec

/-- The state after a sequence of calls, each with the time at which it is made. -/
def run_calls (H : Headers) : List (Int × ban_call) → sec_mod_st → Option sec_mod_st
  | [], sec => some sec
  | (now, c) :: rest, sec =>
    match c.exec H now sec with
    | some sec1 => run_calls H rest sec1
    | none => none

/-- The lookup that `add_ip_to_ban_list`, `remove_ip_from_ban_list` and
`check_if_banned` make for the identifier `ip`:
`htable_get(db, rehash(&t, NULL), ban_entry_cmp, &t)`. -/
def ban_lookup (H : Headers) (db : htable) (ip : List Nat) : Option (Nat × ban_entry_st) :=
  htable_get H db (rehash H (lookup_key H ip)) ban_entry_cmp (lookup_key H ip)

/-- No two entries of the table have the same `ip` string, as `ban_entry_cmp`
compares them. -/
def keys_unique (db : htable) : Prop :=
  db.entries.Pairwise (fun a b => ban_entry_cmp a b = false)

instance (db : htable) : Decidable (keys_unique db) :=
  inferInstanceAs (Decidable (db.entries.Pairwise (fun a b => ban_entry_cmp a b = false)))

/-- The calls `add_ip_to_ban_list(sec, ip, attempts, reset_time)` for one
identifier, each given by the time of the call, `attempts` and `reset_time`; both
allocations succeed. -/
def add_calls (ip : List Nat) (calls : List (Int × Nat × Int)) : List (Int × ban_call) :=
  calls.map (fun c => (c.1, ban_call.add (some ip) c.2.1 c.2.2 true true))

/-- No call of the sequence is made after the deadline in force (`deadline` at
first, then the `reset_time` of the call before), and the query at time `q` is
not made after the last deadline. -/
def deadlines_kept (deadline : Int) : List (Int × Nat × Int) → Int → Bool
  | [], q => decide (q ≤ deadline)
  | (now, _, reset_time) :: rest, q => decide (now ≤ deadline) && deadlines_kept reset_time rest q

/-- The state after a successful `sec_mod_ban_db_init`: a live, empty table. -/
def fresh_sec : sec_mod_st :=
  (sec_mod_ban_db_init true { ban_db := .NULL, log := [] }).1

/-- The slots after a sweep at time `now`: a used slot whose entry has
`expires <= now` is marked deleted, every other slot is kept. -/
def sweep_slots (now : Int) (slots : List (Option ban_entry_st)) : List (Option ban_entry_st) :=
  slots.map (fun s =>
    match s with
    | some e => if now ≥ e.expires then none else some e
    | none => none)

/-- The call is an `add_ip_to_ban_list` whose identifier is filed under the same
key as `ip`: the copies `strlcpy` makes of the two identifiers are equal. -/
def ban_call.adds_key (H : Headers) (ip : List Nat) : ban_call → Bool
  | .add (some ip1) _ _ _ _ => decide (strlcpy H.MAX_IP_STR ip1 = strlcpy H.MAX_IP_STR ip)
  | _ => false

/-- An identifier of 46 bytes: 45 times the digit 1, then the digit 2. -/
def long_ip_a : List Nat := List.replicate 45 49 ++ [50]

/-- An identifier of 46 bytes: 45 times the digit 1, then the digit 3. -/
def long_ip_b : List Nat := List.replicate 45 49 ++ [51]

/-- Values of the header constants for the concrete evaluations: an `ip` buffer
of 46 bytes (the length of an IPv6 address string with its NUL), the threshold 3
of the scenario in the spec, and a sample hash function. -/
def sample_headers : Headers :=
  { MAX_IP_STR := 46, MAX_PASSWORD_TRIES := 3, hash_any := fun key base => key.foldl (· + ·) base }

/-- A state with a live table that holds two entries: `10.0.0.5` with 3 failed
attempts and deadline 60, and `10.0.0.6` with 1 failed attempt and deadline 5. -/
def sample_sec : sec_mod_st :=
  { ban_db := .live ⟨[some ⟨[49, 48, 46, 48, 46, 48, 46, 53], 3, 60⟩,
      some ⟨[49, 48, 46, 48, 46, 48, 46, 54], 1, 5⟩]⟩,
    log := [] }

/-- The table of `sample_sec`. -/
def sample_db : htable :=
  ⟨[some ⟨[49, 48, 46, 48, 46, 48, 46, 53], 3, 60⟩,
    some ⟨[49, 48, 46, 48, 46, 48, 46, 54], 1, 5⟩]⟩

/-- The identifier `10.0.0.5`. -/
def ip_10_0_0_5 : List Nat := [49, 48, 46, 48, 46, 48, 46, 53]

/-- The identifier `10.0.0.6`. -/
def ip_10_0_0_6 : List Nat := [49, 48, 46, 48, 46, 48, 46, 54]

/-! ## Properties -/

/-! ### Strings and keys -/

theorem c_str_idem (s : List Nat) : c_str (c_str s) = c_str s := by
  unfold c_str
  rw [List.takeWhile_eq_self_iff]
  intro x hx
  exact List.mem_takeWhile_imp (p := fun c => c != 0) hx

theorem c_str_strlcpy (n : Nat) (s : List Nat) : c_str (strlcpy n s) = strlcpy n s := by
  unfold strlcpy c_str
  rw [List.takeWhile_eq_self_iff]
  intro x hx
  exact List.mem_takeWhile_imp (p := fun c => c != 0) (List.mem_of_mem_take hx)

theorem ban_entry_cmp_iff (a b : ban_entry_st) :
    ban_entry_cmp a b = true ↔ c_str a.ip = c_str b.ip := by
  unfold ban_entry_cmp
  split <;> simp_all

theorem ban_entry_cmp_false_iff (a b : ban_entry_st) :
    ban_entry_cmp a b = false ↔ c_str a.ip ≠ c_str b.ip := by
  unfold ban_entry_cmp
  split <;> simp_all

theorem ban_entry_cmp_key_iff (H : Headers) (e : ban_entry_st) (ip : List Nat) :
    ban_entry_cmp e (lookup_key H ip) = true ↔ c_str e.ip = strlcpy H.MAX_IP_STR ip := by
  rw [ban_entry_cmp_iff]
  simp [lookup_key, c_str_strlcpy]

/-- The hash test of `htable_get` never rejects an entry that `ban_entry_cmp`
accepts. -/
theorem lookup_pred_eq (H : Headers) (t c : ban_entry_st) :
    (rehash H c == rehash H t && ban_entry_cmp c t) = ban_entry_cmp c t := by
  cases h : ban_entry_cmp c t
  · simp
  · have := (ban_entry_cmp_iff c t).1 h
    simp [rehash, this]

theorem ban_lookup_eq (H : Headers) (db : htable) (ip : List Nat) :
    ban_lookup H db ip = first_valid (fun c => ban_entry_cmp c (lookup_key H ip)) db.table 0 := by
  unfold ban_lookup htable_get
  congr 1
  funext c
  exact lookup_pred_eq H _ c

/-! ### The first used slot that satisfies a test -/

theorem first_valid_none_iff (p : ban_entry_st → Bool) (slots : List (Option ban_entry_st))
    (off : Nat) : first_valid p slots off = none ↔ ∀ x, some x ∈ slots → p x = false := by
  induction slots generalizing off with
  | nil => simp [first_valid]
  | cons s rest ih =>
    cases s with
    | none => simp [first_valid, ih]
    | some e =>
      by_cases hp : p e = true
      · simp [first_valid, hp]
      · simp only [Bool.not_eq_true] at hp
        simp [first_valid, hp, ih]

theorem first_valid_some_split (p : ban_entry_st → Bool) (slots : List (Option ban_entry_st))
    (off i : Nat) (e : ban_entry_st) (h : first_valid p slots off = some (i, e)) :
    ∃ pre post, slots = pre ++ some e :: post ∧ i = off + pre.length ∧ p e = true ∧
      ∀ x, some x ∈ pre → p x = false := by
  induction slots generalizing off with
  | nil => simp [first_valid] at h
  | cons s rest ih =>
    cases s with
    | none =>
      simp only [first_valid] at h
      obtain ⟨pre, post, h1, h2, h3, h4⟩ := ih (off + 1) h
      refine ⟨none :: pre, post, by simp [h1], by simp [h2]; omega, h3, ?_⟩
      intro x hx
      simp at hx
      exact h4 x hx
    | some a =>
      by_cases hp : p a = true
      · simp [first_valid, hp] at h
        obtain ⟨h1, h2⟩ := h
        subst h1 h2
        exact ⟨[], rest, by simp, by simp, hp, by simp⟩
      · simp only [Bool.not_eq_true] at hp
        simp [first_valid, hp] at h
        obtain ⟨pre, post, h1, h2, h3, h4⟩ := ih (off + 1) h
        refine ⟨some a :: pre, post, by simp [h1], by simp [h2]; omega, h3, ?_⟩
        intro x hx
        simp at hx
        rcases hx with hx | hx
        · subst hx; exact hp
        · exact h4 x hx

theorem first_valid_split (p : ban_entry_st → Bool) (pre post : List (Option ban_entry_st))
    (e : ban_entry_st) (off : Nat) (hp : p e = true) (hpre : ∀ x, some x ∈ pre → p x = false) :
    first_valid p (pre ++ some e :: post) off = some (off + pre.length, e) := by
  induction pre generalizing off with
  | nil => simp [first_valid, hp]
  | cons s rest ih =>
    have hrest : ∀ x, some x ∈ rest → p x = false := fun x hx => hpre x (by simp [hx])
    cases s with
    | none =>
      have e1 : off + 1 + rest.length = off + (rest.length + 1) := by omega
      rw [List.cons_append, first_valid, List.length_cons, ih (off + 1) hrest, e1]
    | some a =>
      have ha : p a = false := hpre a (by simp)
      have e1 : off + 1 + rest.length = off + (rest.length + 1) := by omega
      rw [List.cons_append, first_valid, ha, List.length_cons, ih (off + 1) hrest, e1]
      simp

theorem mem_entries_iff (db : htable) (x : ban_entry_st) :
    x ∈ db.entries ↔ some x ∈ db.table := by
  simp [htable.entries, List.mem_filterMap]

theorem ban_lookup_none_iff (H : Headers) (db : htable) (ip : List Nat) :
    ban_lookup H db ip = none ↔
      ∀ x ∈ db.entries, ban_entry_cmp x (lookup_key H ip) = false := by
  rw [ban_lookup_eq, first_valid_none_iff]
  simp only [mem_entries_iff]

theorem ban_lookup_some_split (H : Headers) (db : htable) (ip : List Nat) (i : Nat)
    (e : ban_entry_st) (h : ban_lookup H db ip = some (i, e)) :
    ∃ pre post, db.table = pre ++ some e :: post ∧ i = pre.length ∧
      ban_entry_cmp e (lookup_key H ip) = true ∧
      ∀ x, some x ∈ pre → ban_entry_cmp x (lookup_key H ip) = false := by
  rw [ban_lookup_eq] at h
  obtain ⟨pre, post, h1, h2, h3, h4⟩ := first_valid_some_split _ _ _ _ _ h
  exact ⟨pre, post, h1, by omega, h3, h4⟩

theorem ban_lookup_of_split (H : Headers) (ip : List Nat) (pre post : List (Option ban_entry_st))
    (e : ban_entry_st) (hp : ban_entry_cmp e (lookup_key H ip) = true)
    (hpre : ∀ x, some x ∈ pre → ban_entry_cmp x (lookup_key H ip) = false) :
    ban_lookup H ⟨pre ++ some e :: post⟩ ip = some (pre.length, e) := by
  rw [ban_lookup_eq]
  have := first_valid_split (fun c => ban_entry_cmp c (lookup_key H ip)) pre post e 0 hp hpre
  simpa using this

theorem ban_lookup_mem (H : Headers) (db : htable) (ip : List Nat) (i : Nat)
    (e : ban_entry_st) (h : ban_lookup H db ip = some (i, e)) :
    e ∈ db.entries ∧ ban_entry_cmp e (lookup_key H ip) = true := by
  obtain ⟨pre, post, h1, -, h3, -⟩ := ban_lookup_some_split H db ip i e h
  exact ⟨by rw [mem_entries_iff, h1]; simp, h3⟩

/-! ### The operations on a live table -/

theorem check_if_banned_live (H : Headers) (now : Int) (sec : sec_mod_st) (db : htable)
    (ip : List Nat) (hdb : sec.ban_db = .live db) (hip : ip.headD 0 ≠ 0) :
    check_if_banned H now sec (some ip) =
      match ban_lookup H db ip with
      | some (_, e) =>
        if now > e.expires then some 0
        else if e.failed_attempts ≥ H.MAX_PASSWORD_TRIES then some 1
        else some 0
      | none => some 0 := by
  unfold check_if_banned ban_lookup
  rw [hdb]
  simp only [hip, if_false]

/-! ### Writing through an entry pointer -/

theorem set_split (pre post : List (Option ban_entry_st)) (a b : Option ban_entry_st) :
    (pre ++ a :: post).set pre.length b = pre ++ b :: post := by
  induction pre with
  | nil => rfl
  | cons x rest ih => simp [ih]

theorem set_append_last (l : List (Option ban_entry_st)) (a b : Option ban_entry_st) :
    (l ++ [a]).set l.length b = l ++ [b] :=
  set_split l [] a b

theorem getElem?_split (pre post : List (Option ban_entry_st)) (a : Option ban_entry_st) :
    (pre ++ a :: post)[pre.length]? = some a := by
  induction pre with
  | nil => simp
  | cons x rest ih => simpa using ih

/-- Storing an entry with the same `ip` in the slot the lookup found leaves the
lookup at that slot. -/
theorem ban_lookup_store (H : Headers) (db : htable) (ip : List Nat) (slot : Nat)
    (e e1 : ban_entry_st) (hl : ban_lookup H db ip = some (slot, e)) (hip : e1.ip = e.ip) :
    ban_lookup H (htable_store db slot e1) ip = some (slot, e1) := by
  obtain ⟨pre, post, h1, h2, h3, h4⟩ := ban_lookup_some_split H db ip slot e hl
  have hc : ban_entry_cmp e1 (lookup_key H ip) = true := by
    rw [ban_entry_cmp_iff] at h3 ⊢
    rw [hip]; exact h3
  have := ban_lookup_of_split H ip pre post e1 hc h4
  unfold htable_store
  rw [h1, h2, set_split]
  exact this

theorem store_entries_length (db : htable) (slot : Nat) (e e1 : ban_entry_st)
    (pre post : List (Option ban_entry_st)) (h1 : db.table = pre ++ some e :: post)
    (h2 : slot = pre.length) : (htable_store db slot e1).elems = db.elems := by
  unfold htable_store htable.elems
  rw [h1, h2, set_split]
  simp [List.filterMap_append]

theorem ban_lookup_store_elems (H : Headers) (db : htable) (ip : List Nat) (slot : Nat)
    (e e1 : ban_entry_st) (hl : ban_lookup H db ip = some (slot, e)) :
    (htable_store db slot e1).elems = db.elems := by
  obtain ⟨pre, post, h1, h2, -, -⟩ := ban_lookup_some_split H db ip slot e hl
  exact store_entries_length db slot e e1 pre post h1 h2

/-- An entry for the identifier, appended to a table that has none, is what the
lookup finds. -/
theorem ban_lookup_append (H : Headers) (db : htable) (ip : List Nat) (e1 : ban_entry_st)
    (hl : ban_lookup H db ip = none) (hc : ban_entry_cmp e1 (lookup_key H ip) = true) :
    ban_lookup H ⟨db.table ++ [some e1]⟩ ip = some (db.table.length, e1) := by
  rw [ban_lookup_none_iff] at hl
  exact ban_lookup_of_split H ip db.table [] e1 hc
    (fun x hx => hl x ((mem_entries_iff db x).2 hx))

theorem add_ip_record_db (H : Headers) (sec : sec_mod_st) (db : htable) (slot : Nat)
    (e : ban_entry_st) (ip : List Nat) (attempts : Nat) (reset_time : Int) :
    (add_ip_record H sec db slot e ip attempts reset_time).ban_db =
      .live (htable_store db slot
        ⟨e.ip, (e.failed_attempts + attempts) % UINT_MOD, reset_time⟩) := by
  unfold add_ip_record seclog
  simp only
  split <;> rfl

/-- The table after `add_ip_to_ban_list` for an identifier that has an entry. -/
theorem add_ip_found (H : Headers) (now : Int) (talloc_ok htable_add_ok : Bool)
    (sec : sec_mod_st) (db : htable) (ip : List Nat) (attempts : Nat) (reset_time : Int)
    (slot : Nat) (e : ban_entry_st) (hdb : sec.ban_db = .live db) (hip : ip.headD 0 ≠ 0)
    (hl : ban_lookup H db ip = some (slot, e)) :
    ∃ sec1, add_ip_to_ban_list H now talloc_ok htable_add_ok sec (some ip) attempts reset_time
        = some sec1 ∧
      sec1.ban_db = .live (htable_store db slot
        ⟨e.ip, ((if now > e.expires then 0 else e.failed_attempts) + attempts) % UINT_MOD,
          reset_time⟩) := by
  unfold ban_lookup at hl
  unfold add_ip_to_ban_list
  rw [hdb]
  simp only [hip, if_false, hl]
  refine ⟨_, rfl, ?_⟩
  rw [add_ip_record_db]
  split <;> rfl

/-- The table after a successful `add_ip_to_ban_list` for an identifier that has
no entry. -/
theorem add_ip_absent (H : Headers) (now : Int) (sec : sec_mod_st) (db : htable)
    (ip : List Nat) (attempts : Nat) (reset_time : Int) (hdb : sec.ban_db = .live db)
    (hip : ip.headD 0 ≠ 0) (hl : ban_lookup H db ip = none) :
    ∃ sec1, add_ip_to_ban_list H now true true sec (some ip) attempts reset_time = some sec1 ∧
      sec1.ban_db = .live
        ⟨db.table ++ [some ⟨strlcpy H.MAX_IP_STR ip, attempts % UINT_MOD, reset_time⟩]⟩ := by
  unfold ban_lookup at hl
  unfold add_ip_to_ban_list
  rw [hdb]
  simp only [hip, if_false, hl, if_true]
  refine ⟨_, rfl, ?_⟩
  rw [add_ip_record_db]
  unfold htable_add htable_store
  simp only [set_append_last, Nat.zero_add]

theorem check_if_banned_of_lookup (H : Headers) (now : Int) (sec : sec_mod_st) (db : htable)
    (ip : List Nat) (slot : Nat) (e : ban_entry_st) (hdb : sec.ban_db = .live db)
    (hip : ip.headD 0 ≠ 0) (hl : ban_lookup H db ip = some (slot, e)) :
    check_if_banned H now sec (some ip) =
      if now > e.expires then some 0
      else if e.failed_attempts ≥ H.MAX_PASSWORD_TRIES then some 1 else some 0 := by
  rw [check_if_banned_live H now sec db ip hdb hip, hl]

theorem check_if_banned_of_absent (H : Headers) (now : Int) (sec : sec_mod_st) (db : htable)
    (ip : List Nat) (hdb : sec.ban_db = .live db)
    (hip : ip.headD 0 ≠ 0) (hl : ban_lookup H db ip = none) :
    check_if_banned H now sec (some ip) = some 0 := by
  rw [check_if_banned_live H now sec db ip hdb hip, hl]

theorem lookup_key_cmp (H : Headers) (ip : List Nat) (fa : Nat) (ex : Int) :
    ban_entry_cmp ⟨strlcpy H.MAX_IP_STR ip, fa, ex⟩ (lookup_key H ip) = true := by
  rw [ban_entry_cmp_iff]; rfl

/-! ## C1 -/

theorem run_calls_cons (H : Headers) (now : Int) (c : ban_call) (rest : List (Int × ban_call))
    (sec sec1 : sec_mod_st) (h : c.exec H now sec = some sec1) :
    run_calls H ((now, c) :: rest) sec = run_calls H rest sec1 := by
  simp only [run_calls, h]

/-- Calls for an identifier that has an entry, none made after the deadline in
force, add up in the counter modulo `UINT_MOD`. -/
theorem add_calls_accumulate (H : Headers) (ip : List Nat) (hip : ip.headD 0 ≠ 0)
    (calls : List (Int × Nat × Int)) :
    ∀ (sec : sec_mod_st) (db : htable) (slot : Nat) (e : ban_entry_st) (q : Int),
      sec.ban_db = .live db → ban_lookup H db ip = some (slot, e) →
      e.failed_attempts < UINT_MOD → deadlines_kept e.expires calls q = true →
      ∃ sec1, run_calls H (add_calls ip calls) sec = some sec1 ∧
        check_if_banned H q sec1 (some ip) = some
          (if H.MAX_PASSWORD_TRIES ≤ (e.failed_attempts + (calls.map (·.2.1)).sum) % UINT_MOD
            then 1 else 0) := by
  induction calls with
  | nil =>
    intro sec db slot e q hdb hl hfa hd
    refine ⟨sec, rfl, ?_⟩
    simp only [deadlines_kept, decide_eq_true_eq] at hd
    rw [check_if_banned_of_lookup H q sec db ip slot e hdb hip hl]
    have h1 : ¬ q > e.expires := by omega
    simp only [h1, if_false, List.map_nil, List.sum_nil, Nat.add_zero, Nat.mod_eq_of_lt hfa]
    split <;> rfl
  | cons c rest ih =>
    intro sec db slot e q hdb hl hfa hd
    obtain ⟨now, attempts, reset_time⟩ := c
    simp only [deadlines_kept, Bool.and_eq_true, decide_eq_true_eq] at hd
    obtain ⟨hnow, hd⟩ := hd
    obtain ⟨sec1, hadd, hdb1⟩ :=
      add_ip_found H now true true sec db ip attempts reset_time slot e hdb hip hl
    have hnexp : ¬ now > e.expires := by omega
    simp only [hnexp, if_false] at hdb1
    have hl1 := ban_lookup_store H db ip slot e
      ⟨e.ip, (e.failed_attempts + attempts) % UINT_MOD, reset_time⟩ hl rfl
    obtain ⟨sec2, hrun, hchk⟩ := ih sec1 _ slot _ q hdb1 hl1
      (Nat.mod_lt _ (by decide)) hd
    refine ⟨sec2, ?_, ?_⟩
    · simp only [add_calls, List.map_cons]
      rw [run_calls_cons H now (.add (some ip) attempts reset_time true true) _ sec sec1 hadd]
      exact hrun
    · rw [hchk]
      simp only [List.map_cons, List.sum_cons]
      rw [Nat.mod_add_mod, Nat.add_assoc]

/-- C2, as amended. For an identifier with no entry and a non-empty sequence of
successful `add_ip_to_ban_list` calls for it, none made after the deadline set by
the call before it, and a query not made after the last deadline:
`check_if_banned` returns 1 when the sum of the increments modulo `UINT_MOD` is
at least `MAX_PASSWORD_TRIES`, and 0 when it is below. -/
theorem add_calls_banned_iff_wrapped_sum (H : Headers) (sec : sec_mod_st) (db : htable)
    (ip : List Nat) (c : Int × Nat × Int) (rest : List (Int × Nat × Int)) (q : Int)
    (hdb : sec.ban_db = .live db) (hip : ip.headD 0 ≠ 0)
    (hl : ban_lookup H db ip = none) (hd : deadlines_kept c.2.2 rest q = true) :
    ∃ sec1, run_calls H (add_calls ip (c :: rest)) sec = some sec1 ∧
      check_if_banned H q sec1 (some ip) = some
        (if H.MAX_PASSWORD_TRIES ≤ (((c :: rest).map (·.2.1)).sum) % UINT_MOD then 1 else 0) := by
  obtain ⟨now, attempts, reset_time⟩ := c
  obtain ⟨sec1, hadd, hdb1⟩ := add_ip_absent H now sec db ip attempts reset_time hdb hip hl
  have hl1 := ban_lookup_append H db ip
    ⟨strlcpy H.MAX_IP_STR ip, attempts % UINT_MOD, reset_time⟩ hl (lookup_key_cmp H ip _ _)
  obtain ⟨sec2, hrun, hchk⟩ := add_calls_accumulate H ip hip rest sec1 _ _ _ q hdb1 hl1
    (Nat.mod_lt _ (by decide)) hd
  refine ⟨sec2, ?_, ?_⟩
  · simp only [add_calls, List.map_cons]
    rw [run_calls_cons H now (.add (some ip) attempts reset_time true true) _ sec sec1 hadd]
    exact hrun
  · rw [hchk]
    simp only [List.map_cons, List.sum_cons]
    rw [Nat.mod_add_mod]

/-- The scenario of the spec: with threshold 3, two failed attempts and then one
more, all before the deadline 60, ban `10.0.0.5`. -/
theorem add_calls_banned_iff_wrapped_sum_witness :
    ∃ sec1, run_calls sample_headers (add_calls ip_10_0_0_5 [(0, 2, 60), (1, 1, 60)]) fresh_sec
        = some sec1 ∧
      check_if_banned sample_headers 2 sec1 (some ip_10_0_0_5) = some 1 :=
  add_calls_banned_iff_wrapped_sum sample_headers fresh_sec htable_init ip_10_0_0_5
    (0, 2, 60) [(1, 1, 60)] 2 rfl (by decide) (by decide) (by decide)

/-- C2 as stated fails: the increments 4294967295 and 1, both recorded before the
deadline, sum to 4294967296, which is at least the threshold 3, yet the counter
wraps to 0 and `check_if_banned` returns 0. -/
theorem add_calls_sum_overflow_not_banned :
    ((run_calls sample_headers (add_calls ip_10_0_0_5 [(0, 4294967295, 60), (1, 1, 60)])
        fresh_sec).bind (fun sec1 => check_if_banned sample_headers 2 sec1 (some ip_10_0_0_5))
      = some 0) ∧
    ban_lookup sample_headers htable_init ip_10_0_0_5 = none ∧
    deadlines_kept 60 [(1, 1, 60)] 2 = true ∧
    sample_headers.MAX_PASSWORD_TRIES ≤ 4294967295 + 1 := by
  decide

/-! ## C3 -/

/-- C3. Lazy decay: when the table holds an entry for the identifier and
`now > expires`, `add_ip_to_ban_list(ip, attempts, T2)` leaves that entry, in the
same slot and with the same `ip`, with `failed_attempts = attempts` and
`expires = T2`; afterwards `check_if_banned` returns 1 only if
`attempts >= MAX_PASSWORD_TRIES`, and at every time up to `T2` it returns 1
exactly in that case. -/
theorem add_ip_lazy_decay (H : Headers) (now : Int) (talloc_ok htable_add_ok : Bool)
    (sec : sec_mod_st) (db : htable) (ip : List Nat) (attempts : Nat) (T2 : Int)
    (slot : Nat) (e : ban_entry_st) (hdb : sec.ban_db = .live db) (hip : ip.headD 0 ≠ 0)
    (hl : ban_lookup H db ip = some (slot, e)) (hexp : now > e.expires)
    (hatt : attempts < UINT_MOD) :
    ∃ sec1 db1, add_ip_to_ban_list H now talloc_ok htable_add_ok sec (some ip) attempts T2
        = some sec1 ∧
      sec1.ban_db = .live db1 ∧
      ban_lookup H db1 ip = some (slot, ⟨e.ip, attempts, T2⟩) ∧
      (∀ later : Int, check_if_banned H later sec1 (some ip) = some 1 →
        H.MAX_PASSWORD_TRIES ≤ attempts) ∧
      (∀ later : Int, later ≤ T2 → check_if_banned H later sec1 (some ip) =
        some (if H.MAX_PASSWORD_TRIES ≤ attempts then 1 else 0)) := by
  obtain ⟨sec1, hadd, hdb1⟩ :=
    add_ip_found H now talloc_ok htable_add_ok sec db ip attempts T2 slot e hdb hip hl
  simp only [hexp, if_true, Nat.zero_add, Nat.mod_eq_of_lt hatt] at hdb1
  have hl1 := ban_lookup_store H db ip slot e ⟨e.ip, attempts, T2⟩ hl rfl
  refine ⟨sec1, _, hadd, hdb1, hl1, ?_, ?_⟩
  · intro later hc
    rw [check_if_banned_of_lookup H later sec1 _ ip slot _ hdb1 hip hl1] at hc
    simp only at hc
    by_contra hlt
    have h2 : ¬ attempts ≥ H.MAX_PASSWORD_TRIES := hlt
    simp only [h2, if_false, ite_self] at hc
    cases hc
  · intro later hle
    rw [check_if_banned_of_lookup H later sec1 _ ip slot _ hdb1 hip hl1]
    have h1 : ¬ later > T2 := by omega
    simp only [h1, if_false]
    split <;> rfl

/-- In `sample_sec` the entry of `10.0.0.5` has 3 failed attempts and deadline 60;
one failed attempt at time 61 with deadline 120 leaves the counter at 1. -/
theorem add_ip_lazy_decay_witness :
    ∃ sec1 db1, add_ip_to_ban_list sample_headers 61 true true sample_sec (some ip_10_0_0_5)
        1 120 = some sec1 ∧
      sec1.ban_db = .live db1 ∧
      ban_lookup sample_headers db1 ip_10_0_0_5 = some (0, ⟨ip_10_0_0_5, 1, 120⟩) ∧
      (∀ later : Int, check_if_banned sample_headers later sec1 (some ip_10_0_0_5) = some 1 →
        sample_headers.MAX_PASSWORD_TRIES ≤ 1) ∧
      (∀ later : Int, later ≤ 120 → check_if_banned sample_headers later sec1
        (some ip_10_0_0_5) = some (if sample_headers.MAX_PASSWORD_TRIES ≤ 1 then 1 else 0)) :=
  add_ip_lazy_decay sample_headers 61 true true sample_sec sample_db ip_10_0_0_5 1 120 0
    ⟨ip_10_0_0_5, 3, 60⟩ rfl (by decide) (by decide) (by decide) (by decide)

/-! ## C4 -/

/-- C4. Accumulation and deadline refresh: when the table holds an entry for the
identifier and `now <= expires`, `add_ip_to_ban_list(ip, attempts, reset_time)`
leaves that entry, in the same slot and with the same `ip`, with
`failed_attempts` the old value plus `attempts` modulo `UINT_MOD` and with
`expires = reset_time`, for every `reset_time`; the number of entries is
unchanged. -/
theorem add_ip_accumulates (H : Headers) (now : Int) (talloc_ok htable_add_ok : Bool)
    (sec : sec_mod_st) (db : htable) (ip : List Nat) (attempts : Nat) (reset_time : Int)
    (slot : Nat) (e : ban_entry_st) (hdb : sec.ban_db = .live db) (hip : ip.headD 0 ≠ 0)
    (hl : ban_lookup H db ip = some (slot, e)) (hnow : now ≤ e.expires) :
    ∃ sec1 db1, add_ip_to_ban_list H now talloc_ok htable_add_ok sec (some ip) attempts
        reset_time = some sec1 ∧
      sec1.ban_db = .live db1 ∧
      ban_lookup H db1 ip =
        some (slot, ⟨e.ip, (e.failed_attempts + attempts) % UINT_MOD, reset_time⟩) ∧
      db1.table.length = db.table.length ∧
      db1.elems = db.elems ∧
      sec_mod_ban_db_elems sec1 = sec_mod_ban_db_elems sec := by
  obtain ⟨sec1, hadd, hdb1⟩ :=
    add_ip_found H now talloc_ok htable_add_ok sec db ip attempts reset_time slot e hdb hip hl
  have hnexp : ¬ now > e.expires := by omega
  simp only [hnexp, if_false] at hdb1
  have hl1 := ban_lookup_store H db ip slot e
    ⟨e.ip, (e.failed_attempts + attempts) % UINT_MOD, reset_time⟩ hl rfl
  have hel := ban_lookup_store_elems H db ip slot e
    ⟨e.ip, (e.failed_attempts + attempts) % UINT_MOD, reset_time⟩ hl
  refine ⟨sec1, _, hadd, hdb1, hl1, ?_, hel, ?_⟩
  · simp [htable_store]
  · unfold sec_mod_ban_db_elems
    rw [hdb1, hdb]
    simp only [hel]

/-- In `sample_sec` the entry of `10.0.0.5` has 3 failed attempts and deadline 60;
two failed attempts at time 60 with the earlier deadline 10 leave the counter at
5 and the deadline at 10. -/
theorem add_ip_accumulates_witness :
    ∃ sec1 db1, add_ip_to_ban_list sample_headers 60 true true sample_sec (some ip_10_0_0_5)
        2 10 = some sec1 ∧
      sec1.ban_db = .live db1 ∧
      ban_lookup sample_headers db1 ip_10_0_0_5 =
        some (0, ⟨ip_10_0_0_5, (3 + 2) % UINT_MOD, 10⟩) ∧
      db1.table.length = sample_db.table.length ∧
      db1.elems = sample_db.elems ∧
      sec_mod_ban_db_elems sec1 = sec_mod_ban_db_elems sample_sec :=
  add_ip_accumulates sample_headers 60 true true sample_sec sample_db ip_10_0_0_5 2 10 0
    ⟨ip_10_0_0_5, 3, 60⟩ rfl (by decide) (by decide) (by decide)

/-! ## C5 -/

theorem drop_after_split (pre rest : List (Option ban_entry_st)) (x : Option ban_entry_st) :
    (pre ++ x :: rest).drop (pre.length + 1) = rest := by
  induction pre with
  | nil => rfl
  | cons a l ih => simp

/-- The loop of `cleanup_banned_entries`, entered with the iterator on the first
used slot of `rest`, sweeps `rest` and leaves the slots before it as they are,
if the fuel covers the slots of `rest`. -/
theorem cleanup_loop_sweeps (now : Int) (rest : List (Option ban_entry_st)) :
    ∀ (pre : List (Option ban_entry_st)) (fuel : Nat), rest.length ≤ fuel →
      cleanup_loop now fuel ⟨pre ++ rest⟩ (first_valid (fun _ => true) rest pre.length)
        = ⟨pre ++ sweep_slots now rest⟩ := by
  induction rest with
  | nil =>
    intro pre fuel _
    cases fuel <;> simp [first_valid, cleanup_loop, sweep_slots]
  | cons s r ih =>
    intro pre fuel hfuel
    cases s with
    | none =>
      have h := ih (pre ++ [none]) fuel (by simp at hfuel; omega)
      simp only [List.append_assoc, List.singleton_append, List.length_append,
        List.length_singleton] at h
      simp only [first_valid]
      rw [h]
      simp [sweep_slots]
    | some e =>
      cases fuel with
      | zero => simp at hfuel
      | succ f =>
        have hf : r.length ≤ f := by simp at hfuel; omega
        simp only [first_valid, if_true, cleanup_loop]
        by_cases hexp : now ≥ e.expires
        · have h := ih (pre ++ [none]) f hf
          simp only [List.append_assoc, List.singleton_append, List.length_append,
            List.length_singleton] at h
          simp only [hexp, if_true, htable_delval, htable_next, set_split, drop_after_split]
          rw [h]
          simp [sweep_slots, hexp]
        · have h := ih (pre ++ [some e]) f hf
          simp only [List.append_assoc, List.singleton_append, List.length_append,
            List.length_singleton] at h
          simp only [hexp, if_false, htable_next, drop_after_split]
          rw [h]
          simp [sweep_slots, hexp]

theorem cleanup_banned_entries_live (now : Int) (sec : sec_mod_st) (db : htable)
    (hdb : sec.ban_db = .live db) :
    cleanup_banned_entries now sec =
      some { sec with ban_db := .live ⟨sweep_slots now db.table⟩ } := by
  unfold cleanup_banned_entries
  rw [hdb]
  have h := cleanup_loop_sweeps now db.table [] db.table.length (Nat.le_refl _)
  simp only [List.nil_append, List.length_nil] at h
  simp only [htable_first]
  rw [h]

theorem sweep_slots_entries (now : Int) (slots : List (Option ban_entry_st)) :
    (sweep_slots now slots).filterMap id =
      (slots.filterMap id).filter (fun e => decide (e.expires > now)) := by
  induction slots with
  | nil => rfl
  | cons s r ih =>
    unfold sweep_slots at ih ⊢
    cases s with
    | none => simpa using ih
    | some e =>
      by_cases hexp : now ≥ e.expires
      · have h2 : ¬ e.expires > now := by omega
        simp [hexp, List.filter_cons, ih]
      · have h2 : e.expires > now := by omega
        simp [hexp, List.filter_cons, h2, ih]

theorem filter_expired_length (now : Int) (l : List ban_entry_st) :
    (l.filter (fun e => decide (e.expires > now))).length +
      (l.filter (fun e => decide (e.expires ≤ now))).length = l.length := by
  induction l with
  | nil => rfl
  | cons e r ih =>
    by_cases h : e.expires > now
    · have h2 : ¬ e.expires ≤ now := by omega
      simp only [gt_iff_lt] at ih h
      simp [List.filter_cons, h, h2]
      omega
    · have h2 : e.expires ≤ now := by omega
      simp only [gt_iff_lt] at ih h
      simp [List.filter_cons, h, h2]
      omega

/-- C6. On a live table, `cleanup_banned_entries` at time `now` returns, and
afterwards the table holds exactly the entries that had `expires > now`, in the
same order and with all three fields as before, and `sec_mod_ban_db_elems` has
decreased by exactly the number of entries that had `expires <= now`. -/
theorem cleanup_removes_exactly_expired (now : Int) (sec : sec_mod_st) (db : htable)
    (hdb : sec.ban_db = .live db) :
    ∃ sec1 db1, cleanup_banned_entries now sec = some sec1 ∧
      sec1.ban_db = .live db1 ∧
      db1.entries = db.entries.filter (fun e => decide (e.expires > now)) ∧
      sec_mod_ban_db_elems sec = some db.elems ∧
      (db.entries.filter (fun e => decide (e.expires ≤ now))).length ≤ db.elems ∧
      sec_mod_ban_db_elems sec1 =
        some (db.elems - (db.entries.filter (fun e => decide (e.expires ≤ now))).length) := by
  have hlen := filter_expired_length now db.entries
  refine ⟨_, ⟨sweep_slots now db.table⟩, cleanup_banned_entries_live now sec db hdb, rfl,
    sweep_slots_entries now db.table, ?_, ?_, ?_⟩
  · simp [sec_mod_ban_db_elems, hdb]
  · unfold htable.elems
    unfold htable.entries at hlen
    unfold htable.entries
    omega
  · simp only [sec_mod_ban_db_elems, htable.elems, sweep_slots_entries]
    unfold htable.entries at hlen
    unfold htable.entries
    congr 1
    omega

/-- A sweep of `sample_sec` at time 5 removes `10.0.0.6`, whose deadline is 5, and
keeps `10.0.0.5`, whose deadline is 60. -/
theorem cleanup_removes_exactly_expired_witness :
    ∃ sec1 db1, cleanup_banned_entries 5 sample_sec = some sec1 ∧
      sec1.ban_db = .live db1 ∧
      db1.entries = sample_db.entries.filter (fun e => decide (e.expires > 5)) ∧
      sec_mod_ban_db_elems sample_sec = some sample_db.elems ∧
      (sample_db.entries.filter (fun e => decide (e.expires ≤ 5))).length ≤ sample_db.elems ∧
      sec_mod_ban_db_elems sec1 =
        some (sample_db.elems - (sample_db.entries.filter
          (fun e => decide (e.expires ≤ 5))).length) :=
  cleanup_removes_exactly_expired 5 sample_sec sample_db rfl

/-! ### The effect of one call on the entries of a live table -/

theorem remove_ip_found (H : Headers) (sec : sec_mod_st) (db : htable) (ip : List Nat)
    (slot : Nat) (e : ban_entry_st) (hdb : sec.ban_db = .live db) (hip : ip.headD 0 ≠ 0)
    (hl : ban_lookup H db ip = some (slot, e)) :
    remove_ip_from_ban_list H sec (some ip) =
      some { sec with ban_db := .live (htable_store db slot ⟨e.ip, 0, 0⟩) } := by
  unfold ban_lookup at hl
  unfold remove_ip_from_ban_list
  rw [hdb]
  simp only [hip, if_false, hl]

theorem remove_ip_absent (H : Headers) (sec : sec_mod_st) (db : htable) (ip : List Nat)
    (hdb : sec.ban_db = .live db) (hl : ban_lookup H db ip = none) :
    remove_ip_from_ban_list H sec (some ip) = some sec := by
  unfold ban_lookup at hl
  unfold remove_ip_from_ban_list
  rw [hdb]
  simp only [hl]
  split <;> rfl

theorem store_entries_mem (H : Headers) (db : htable) (ip : List Nat) (slot : Nat)
    (e e1 : ban_entry_st) (hl : ban_lookup H db ip = some (slot, e)) (x : ban_entry_st)
    (hx : x ∈ (htable_store db slot e1).entries) : x = e1 ∨ x ∈ db.entries := by
  obtain ⟨pre, post, h1, h2, -, -⟩ := ban_lookup_some_split H db ip slot e hl
  rw [mem_entries_iff] at hx ⊢
  simp only [htable_store] at hx
  rw [h1, h2, set_split] at hx
  rw [h1]
  simp only [List.mem_append, List.mem_cons, Option.some.injEq] at hx ⊢
  rcases hx with hx | hx | hx
  · exact Or.inr (Or.inl hx)
  · exact Or.inl hx
  · exact Or.inr (Or.inr (Or.inr hx))

/-- A call of `add_ip_to_ban_list` on a live table returns and leaves a live
table; its result in each of the cases of the code. -/
theorem add_ip_live_cases (H : Headers) (now : Int) (talloc_ok htable_add_ok : Bool)
    (sec : sec_mod_st) (db : htable) (ip : Option (List Nat)) (attempts : Nat)
    (reset_time : Int) (hdb : sec.ban_db = .live db) :
    ∃ sec1, add_ip_to_ban_list H now talloc_ok htable_add_ok sec ip attempts reset_time
        = some sec1 ∧
      (sec1.ban_db = .live db ∨
       ∃ ip1, ip = some ip1 ∧ ip1.headD 0 ≠ 0 ∧
        ((ban_lookup H db ip1 = none ∧ sec1.ban_db = .live
            ⟨db.table ++ [some ⟨strlcpy H.MAX_IP_STR ip1, attempts % UINT_MOD, reset_time⟩]⟩) ∨
         (∃ slot e, ban_lookup H db ip1 = some (slot, e) ∧
            sec1.ban_db = .live (htable_store db slot
              ⟨e.ip, ((if now > e.expires then 0 else e.failed_attempts) + attempts) % UINT_MOD,
                reset_time⟩)))) := by
  cases ip with
  | none =>
    refine ⟨sec, ?_, Or.inl hdb⟩
    unfold add_ip_to_ban_list
    rw [hdb]
  | some ip1 =>
    by_cases hip : ip1.headD 0 = 0
    · refine ⟨sec, ?_, Or.inl hdb⟩
      unfold add_ip_to_ban_list
      rw [hdb]
      simp only [hip, if_true]
    · cases hl : ban_lookup H db ip1 with
      | some r =>
        obtain ⟨slot, e⟩ := r
        obtain ⟨sec1, h1, h2⟩ := add_ip_found H now talloc_ok htable_add_ok sec db ip1 attempts
          reset_time slot e hdb hip hl
        exact ⟨sec1, h1, Or.inr ⟨ip1, rfl, hip, Or.inr ⟨slot, e, hl, h2⟩⟩⟩
      | none =>
        cases talloc_ok with
        | false =>
          refine ⟨sec, ?_, Or.inl hdb⟩
          unfold ban_lookup at hl
          unfold add_ip_to_ban_list
          rw [hdb]
          simp only [hip, if_false, hl]
          rfl
        | true =>
          cases htable_add_ok with
          | false =>
            refine ⟨seclog sec LOG_INFO .could_not_add, ?_, Or.inl hdb⟩
            unfold ban_lookup at hl
            unfold add_ip_to_ban_list
            rw [hdb]
            simp only [hip, if_false, hl]
            rfl
          | true =>
            obtain ⟨sec1, h1, h2⟩ := add_ip_absent H now sec db ip1 attempts reset_time hdb hip hl
            exact ⟨sec1, h1, Or.inr ⟨ip1, rfl, hip, Or.inl ⟨hl, h2⟩⟩⟩

/-- A call of `remove_ip_from_ban_list` on a live table returns and leaves a live
table; its result in each of the cases of the code. -/
theorem remove_ip_live_cases (H : Headers) (sec : sec_mod_st) (db : htable)
    (ip : Option (List Nat)) (hdb : sec.ban_db = .live db) :
    remove_ip_from_ban_list H sec ip = some sec ∨
    ∃ ip1 slot e, ip = some ip1 ∧ ip1.headD 0 ≠ 0 ∧ ban_lookup H db ip1 = some (slot, e) ∧
      remove_ip_from_ban_list H sec ip =
        some { sec with ban_db := .live (htable_store db slot ⟨e.ip, 0, 0⟩) } := by
  cases ip with
  | none =>
    left
    unfold remove_ip_from_ban_list
    rw [hdb]
  | some ip1 =>
    by_cases hip : ip1.headD 0 = 0
    · left
      unfold remove_ip_from_ban_list
      rw [hdb]
      simp only [hip, if_true]
    · cases hl : ban_lookup H db ip1 with
      | none => exact Or.inl (remove_ip_absent H sec db ip1 hdb hl)
      | some r =>
        obtain ⟨slot, e⟩ := r
        exact Or.inr ⟨ip1, slot, e, rfl, hip, hl, remove_ip_found H sec db ip1 slot e hdb hip hl⟩

/-- On a live table `check_if_banned` returns 0 or 1. -/
theorem check_if_banned_live_cases (H : Headers) (now : Int) (sec : sec_mod_st) (db : htable)
    (ip : Option (List Nat)) (hdb : sec.ban_db = .live db) :
    check_if_banned H now sec ip = some 0 ∨ check_if_banned H now sec ip = some 1 := by
  cases ip with
  | none =>
    left
    unfold check_if_banned
    rw [hdb]
  | some ip1 =>
    by_cases hip : ip1.headD 0 = 0
    · left
      unfold check_if_banned
      rw [hdb]
      simp only [hip, if_true]
    · rw [check_if_banned_live H now sec db ip1 hdb hip]
      cases ban_lookup H db ip1 with
      | none => exact Or.inl rfl
      | some r =>
        obtain ⟨slot, e⟩ := r
        simp only
        split
        · exact Or.inl rfl
        · split
          · exact Or.inr rfl
          · exact Or.inl rfl

/-- One call on a live table returns and leaves a live table. Every entry of the
new table was in the old one, or the call is an `add_ip_to_ban_list` and the
entry has the key of its identifier, or the call is a `remove_ip_from_ban_list`
and the entry is an old one with its counter set to 0. -/
theorem exec_live (H : Headers) (now : Int) (sec : sec_mod_st) (db : htable) (c : ban_call)
    (hdb : sec.ban_db = .live db) :
    ∃ sec1 db1, c.exec H now sec = some sec1 ∧ sec1.ban_db = .live db1 ∧
      ∀ x ∈ db1.entries, x ∈ db.entries ∨
        (∃ ip1 a r t1 t2, c = .add (some ip1) a r t1 t2 ∧
          c_str x.ip = strlcpy H.MAX_IP_STR ip1) ∨
        (∃ ip1, c = .remove ip1 ∧ x.failed_attempts = 0 ∧ ∃ e ∈ db.entries, x.ip = e.ip) := by
  cases c with
  | add ip attempts reset_time talloc_ok htable_add_ok =>
    obtain ⟨sec1, h1, h2⟩ := add_ip_live_cases H now talloc_ok htable_add_ok sec db ip attempts
      reset_time hdb
    rcases h2 with h2 | ⟨ip1, rfl, hip, h2 | ⟨slot, e, hl, h2⟩⟩
    · exact ⟨sec1, db, h1, h2, fun x hx => Or.inl hx⟩
    · refine ⟨sec1, _, h1, h2.2, fun x hx => ?_⟩
      simp only [htable.entries, List.filterMap_append, List.mem_append] at hx
      rcases hx with hx | hx
      · exact Or.inl hx
      · simp at hx
        subst hx
        exact Or.inr (Or.inl ⟨ip1, _, _, _, _, rfl, c_str_strlcpy _ _⟩)
    · refine ⟨sec1, _, h1, h2, fun x hx => ?_⟩
      rcases store_entries_mem H db ip1 slot e _ hl x hx with hx | hx
      · subst hx
        have := (ban_lookup_mem H db ip1 slot e hl).2
        rw [ban_entry_cmp_key_iff] at this
        exact Or.inr (Or.inl ⟨ip1, _, _, _, _, rfl, this⟩)
      · exact Or.inl hx
  | remove ip =>
    rcases remove_ip_live_cases H sec db ip hdb with h | ⟨ip1, slot, e, rfl, hip, hl, h⟩
    · exact ⟨sec, db, h, hdb, fun x hx => Or.inl hx⟩
    · refine ⟨_, _, h, rfl, fun x hx => ?_⟩
      rcases store_entries_mem H db ip1 slot e _ hl x hx with hx | hx
      · subst hx
        exact Or.inr (Or.inr ⟨_, rfl, rfl, e, (ban_lookup_mem H db ip1 slot e hl).1, rfl⟩)
      · exact Or.inl hx
  | check ip =>
    refine ⟨sec, db, ?_, hdb, fun x hx => Or.inl hx⟩
    simp only [ban_call.exec]
    rcases check_if_banned_live_cases H now sec db ip hdb with h | h <;> rw [h] <;> rfl
  | cleanup =>
    refine ⟨_, ⟨sweep_slots now db.table⟩, cleanup_banned_entries_live now sec db hdb, rfl,
      fun x hx => Or.inl ?_⟩
    simp only [htable.entries, sweep_slots_entries] at hx
    exact (List.mem_filter.1 hx).1

/-! ## C7 -/

/-- C7. When the table holds an entry for the identifier,
`remove_ip_from_ban_list` sets the `failed_attempts` and `expires` of that entry
to 0 and keeps it in its slot: the lookup still finds it, every other slot is
unchanged, and `sec_mod_ban_db_elems` is unchanged. -/
theorem remove_ip_zeroes_entry (H : Headers) (sec : sec_mod_st) (db : htable) (ip : List Nat)
    (slot : Nat) (e : ban_entry_st) (hdb : sec.ban_db = .live db) (hip : ip.headD 0 ≠ 0)
    (hl : ban_lookup H db ip = some (slot, e)) :
    ∃ sec1 db1, remove_ip_from_ban_list H sec (some ip) = some sec1 ∧
      sec1.ban_db = .live db1 ∧
      db.table[slot]? = some (some e) ∧
      db1.table[slot]? = some (some ⟨e.ip, 0, 0⟩) ∧
      ban_lookup H db1 ip = some (slot, ⟨e.ip, 0, 0⟩) ∧
      db1.table.length = db.table.length ∧
      (∀ j : Nat, j ≠ slot → db1.table[j]? = db.table[j]?) ∧
      sec_mod_ban_db_elems sec1 = sec_mod_ban_db_elems sec := by
  obtain ⟨pre, post, h1, h2, -, -⟩ := ban_lookup_some_split H db ip slot e hl
  refine ⟨_, htable_store db slot ⟨e.ip, 0, 0⟩, remove_ip_found H sec db ip slot e hdb hip hl,
    rfl, ?_, ?_, ban_lookup_store H db ip slot e ⟨e.ip, 0, 0⟩ hl rfl, ?_, ?_, ?_⟩
  · rw [h1, h2, getElem?_split]
  · simp only [htable_store]
    rw [h1, h2, set_split, getElem?_split]
  · simp [htable_store]
  · intro j hj
    simp only [htable_store]
    rw [List.getElem?_set_ne (Ne.symm hj)]
  · simp only [sec_mod_ban_db_elems, hdb, ban_lookup_store_elems H db ip slot e _ hl]

/-- Clearing `10.0.0.5` in `sample_sec` zeroes its entry in slot 0 and keeps both
slots used. -/
theorem remove_ip_zeroes_entry_witness :
    ∃ sec1 db1, remove_ip_from_ban_list sample_headers sample_sec (some ip_10_0_0_5)
        = some sec1 ∧
      sec1.ban_db = .live db1 ∧
      sample_db.table[0]? = some (some ⟨ip_10_0_0_5, 3, 60⟩) ∧
      db1.table[0]? = some (some ⟨ip_10_0_0_5, 0, 0⟩) ∧
      ban_lookup sample_headers db1 ip_10_0_0_5 = some (0, ⟨ip_10_0_0_5, 0, 0⟩) ∧
      db1.table.length = sample_db.table.length ∧
      (∀ j : Nat, j ≠ 0 → db1.table[j]? = sample_db.table[j]?) ∧
      sec_mod_ban_db_elems sec1 = sec_mod_ban_db_elems sample_sec :=
  remove_ip_zeroes_entry sample_headers sample_sec sample_db ip_10_0_0_5 0
    ⟨ip_10_0_0_5, 3, 60⟩ rfl (by decide) (by decide)

/-! ## C8 -/

/-- With unique keys, the slot the lookup finds is the only used slot whose entry
`ban_entry_cmp` accepts for the identifier. -/
theorem ban_lookup_split_unique (H : Headers) (db : htable) (ip : List Nat) (slot : Nat)
    (e : ban_entry_st) (hl : ban_lookup H db ip = some (slot, e)) (hu : keys_unique db) :
    ∃ pre post, db.table = pre ++ some e :: post ∧ slot = pre.length ∧
      (∀ x, some x ∈ pre → ban_entry_cmp x (lookup_key H ip) = false) ∧
      (∀ x, some x ∈ post → ban_entry_cmp x (lookup_key H ip) = false) := by
  obtain ⟨pre, post, h1, h2, h3, h4⟩ := ban_lookup_some_split H db ip slot e hl
  refine ⟨pre, post, h1, h2, h4, fun x hx => ?_⟩
  unfold keys_unique htable.entries at hu
  rw [h1, List.filterMap_append, List.filterMap_cons_some (by rfl), List.pairwise_append] at hu
  obtain ⟨-, hu2, -⟩ := hu
  rw [List.pairwise_cons] at hu2
  have hne := hu2.1 x (by simp [List.mem_filterMap, hx])
  rw [ban_entry_cmp_false_iff] at hne ⊢
  rw [ban_entry_cmp_iff] at h3
  intro hc
  exact hne (h3.trans hc.symm)

/-- When every entry for the identifier has its counter below the threshold,
`check_if_banned` returns 0 at every time. -/
theorem check_if_banned_zero_of_below (H : Headers) (now : Int) (sec : sec_mod_st)
    (db : htable) (ip : List Nat) (hdb : sec.ban_db = .live db)
    (hq : ∀ x ∈ db.entries, ban_entry_cmp x (lookup_key H ip) = true →
      x.failed_attempts < H.MAX_PASSWORD_TRIES) :
    check_if_banned H now sec (some ip) = some 0 := by
  by_cases hip : ip.headD 0 = 0
  · unfold check_if_banned
    rw [hdb]
    simp only [hip, if_true]
  · rw [check_if_banned_live H now sec db ip hdb hip]
    cases hl : ban_lookup H db ip with
    | none => rfl
    | some r =>
      obtain ⟨slot, e⟩ := r
      obtain ⟨hmem, hcmp⟩ := ban_lookup_mem H db ip slot e hl
      have h2 : ¬ e.failed_attempts ≥ H.MAX_PASSWORD_TRIES := by
        have := hq e hmem hcmp
        omega
      simp only [h2, if_false, ite_self]

/-- A sequence of calls on a live table returns and leaves a live table; a
property of entries that holds for the entries of the table, for every entry
with the key of an added identifier, and for every zeroed copy of an entry that
has it, holds for the entries of the final table. -/
theorem run_calls_entries (H : Headers) (Q : ban_entry_st → Prop)
    (hrm : ∀ x e : ban_entry_st, x.failed_attempts = 0 → x.ip = e.ip → Q e → Q x)
    (calls : List (Int × ban_call)) :
    (∀ c ∈ calls, ∀ ip1 a r t1 t2, c.2 = ban_call.add (some ip1) a r t1 t2 →
      ∀ x : ban_entry_st, c_str x.ip = strlcpy H.MAX_IP_STR ip1 → Q x) →
    ∀ (sec : sec_mod_st) (db : htable), sec.ban_db = .live db → (∀ x ∈ db.entries, Q x) →
      ∃ sec1 db1, run_calls H calls sec = some sec1 ∧ sec1.ban_db = .live db1 ∧
        ∀ x ∈ db1.entries, Q x := by
  induction calls with
  | nil =>
    intro _ sec db hdb hq
    exact ⟨sec, db, rfl, hdb, hq⟩
  | cons c rest ih =>
    intro hadd sec db hdb hq
    obtain ⟨now, c⟩ := c
    obtain ⟨sec1, db1, h1, h2, h3⟩ := exec_live H now sec db c hdb
    have hq1 : ∀ x ∈ db1.entries, Q x := by
      intro x hx
      rcases h3 x hx with h | ⟨ip1, a, r, t1, t2, hc, hk⟩ | ⟨ip1, -, hfa, e, he, hip⟩
      · exact hq x h
      · exact hadd (now, c) (by simp) ip1 a r t1 t2 hc x hk
      · exact hrm x e hfa hip (hq e he)
    obtain ⟨sec2, db2, h4, h5, h6⟩ :=
      ih (fun c hc => hadd c (List.mem_cons_of_mem _ hc)) sec1 db1 h2 hq1
    exact ⟨sec2, db2, by rw [run_calls_cons H now c rest sec sec1 h1]; exact h4, h5, h6⟩

theorem adds_key_false (H : Headers) (ip : List Nat) (c : ban_call)
    (h : c.adds_key H ip = false) (ip1 : List Nat) (a : Nat) (r : Int) (t1 t2 : Bool)
    (hc : c = ban_call.add (some ip1) a r t1 t2) :
    strlcpy H.MAX_IP_STR ip1 ≠ strlcpy H.MAX_IP_STR ip := by
  subst hc
  simpa [ban_call.adds_key] using h

/-- C8, as amended. Clearing forgives: on a live table with unique keys and a
threshold above 0, `remove_ip_from_ban_list(ip)` returns, `check_if_banned(ip)`
returns 0 right after it at every time, whatever the entry held before, and it
still returns 0 after any further calls made at any times, until the next
`add_ip_to_ban_list` for an identifier filed under the key of `ip`, that is, an
identifier whose `strlcpy` copy equals the `strlcpy` copy of `ip`. -/
theorem remove_ip_forgives (H : Headers) (sec : sec_mod_st) (db : htable) (ip : List Nat)
    (calls : List (Int × ban_call)) (later : Int) (hdb : sec.ban_db = .live db)
    (hu : keys_unique db) (hmax : 0 < H.MAX_PASSWORD_TRIES)
    (hno : ∀ c ∈ calls, c.2.adds_key H ip = false) :
    ∃ sec1 sec2, remove_ip_from_ban_list H sec (some ip) = some sec1 ∧
      (∀ now : Int, check_if_banned H now sec1 (some ip) = some 0) ∧
      run_calls H calls sec1 = some sec2 ∧
      check_if_banned H later sec2 (some ip) = some 0 := by
  have hrun : ∀ (sec1 : sec_mod_st) (db1 : htable), sec1.ban_db = .live db1 →
      (∀ x ∈ db1.entries, ban_entry_cmp x (lookup_key H ip) = true →
        x.failed_attempts < H.MAX_PASSWORD_TRIES) →
      (∀ now : Int, check_if_banned H now sec1 (some ip) = some 0) ∧
      ∃ sec2, run_calls H calls sec1 = some sec2 ∧
        check_if_banned H later sec2 (some ip) = some 0 := by
    intro sec1 db1 hdb1 hq
    refine ⟨fun now => check_if_banned_zero_of_below H now sec1 db1 ip hdb1 hq, ?_⟩
    obtain ⟨sec2, db2, h1, h2, h3⟩ := run_calls_entries H
      (fun x => ban_entry_cmp x (lookup_key H ip) = true →
        x.failed_attempts < H.MAX_PASSWORD_TRIES)
      (fun x e hfa _ _ _ => by omega) calls
      (fun c hc ip1 a r t1 t2 hcall x hk hcmp => by
        have hne := adds_key_false H ip c.2 (hno c hc) ip1 a r t1 t2 hcall
        rw [ban_entry_cmp_key_iff] at hcmp
        exact absurd (hk.symm.trans hcmp) hne)
      sec1 db1 hdb1 hq
    exact ⟨sec2, h1, check_if_banned_zero_of_below H later sec2 db2 ip h2 h3⟩
  by_cases hip : ip.headD 0 = 0
  · have h : remove_ip_from_ban_list H sec (some ip) = some sec := by
      unfold remove_ip_from_ban_list
      rw [hdb]
      simp only [hip, if_true]
    have hchk : ∀ (s : sec_mod_st) (d : htable) (t : Int), s.ban_db = .live d →
        check_if_banned H t s (some ip) = some 0 := by
      intro s d t hs
      unfold check_if_banned
      rw [hs]
      simp only [hip, if_true]
    obtain ⟨sec2, db2, h1, h2, -⟩ := run_calls_entries H (fun _ => True)
      (fun _ _ _ _ _ => trivial) calls (fun _ _ _ _ _ _ _ _ _ _ => trivial) sec db hdb
      (fun _ _ => trivial)
    exact ⟨sec, sec2, h, fun now => hchk sec db now hdb, h1, hchk sec2 db2 later h2⟩
  · cases hl : ban_lookup H db ip with
    | none =>
      have h := remove_ip_absent H sec db ip hdb hl
      rw [ban_lookup_none_iff] at hl
      obtain ⟨hnow, sec2, hr, hc⟩ := hrun sec db hdb
        (fun x hx hcmp => by rw [hl x hx] at hcmp; cases hcmp)
      exact ⟨sec, sec2, h, hnow, hr, hc⟩
    | some r =>
      obtain ⟨slot, e⟩ := r
      have h := remove_ip_found H sec db ip slot e hdb hip hl
      obtain ⟨pre, post, h1, h2, h3, h4⟩ := ban_lookup_split_unique H db ip slot e hl hu
      have hq : ∀ x ∈ (htable_store db slot ⟨e.ip, 0, 0⟩).entries,
          ban_entry_cmp x (lookup_key H ip) = true →
          x.failed_attempts < H.MAX_PASSWORD_TRIES := by
        intro x hx hc
        rw [mem_entries_iff] at hx
        simp only [htable_store] at hx
        rw [h1, h2, set_split] at hx
        simp only [List.mem_append, List.mem_cons, Option.some.injEq] at hx
        rcases hx with hx | hx | hx
        · rw [h3 x hx] at hc; cases hc
        · subst hx; exact hmax
        · rw [h4 x hx] at hc; cases hc
      obtain ⟨hnow, sec2, hr, hc⟩ := hrun
        { sec with ban_db := .live (htable_store db slot ⟨e.ip, 0, 0⟩) } _ rfl hq
      exact ⟨_, sec2, h, hnow, hr, hc⟩

/-- Clearing `10.0.0.5`, banned in `sample_sec`, forgives it: after a sweep at
time 6 and five failed attempts of `10.0.0.6` at time 7, it is not banned at
time 8. -/
theorem remove_ip_forgives_witness :
    ∃ sec1 sec2, remove_ip_from_ban_list sample_headers sample_sec (some ip_10_0_0_5)
        = some sec1 ∧
      (∀ now : Int, check_if_banned sample_headers now sec1 (some ip_10_0_0_5) = some 0) ∧
      run_calls sample_headers
        [(6, .cleanup), (7, .add (some ip_10_0_0_6) 5 100 true true)] sec1 = some sec2 ∧
      check_if_banned sample_headers 8 sec2 (some ip_10_0_0_5) = some 0 :=
  remove_ip_forgives sample_headers sample_sec sample_db ip_10_0_0_5
    [(6, .cleanup), (7, .add (some ip_10_0_0_6) 5 100 true true)] 8 rfl
    (by decide) (by decide) (by decide)

/-- C8 as stated fails for identifiers of 46 bytes or more: `long_ip_a` is banned
and then cleared, and `check_if_banned(long_ip_a)` returns 0; three failed
attempts are then recorded for `long_ip_b`, a different string, and with no
`add_ip_to_ban_list` for `long_ip_a` since the clearing `check_if_banned(long_ip_a)`
returns 1. -/
theorem cleared_long_ip_banned_by_other_add :
    long_ip_a ≠ long_ip_b ∧
    (run_calls sample_headers
      [(0, .add (some long_ip_a) 3 60 true true), (1, .remove (some long_ip_a))]
      fresh_sec).bind
      (fun sec1 => check_if_banned sample_headers 1 sec1 (some long_ip_a)) = some 0 ∧
    (run_calls sample_headers
      [(0, .add (some long_ip_a) 3 60 true true), (1, .remove (some long_ip_a)),
        (1, .add (some long_ip_b) 3 60 true true)]
      fresh_sec).bind
      (fun sec1 => check_if_banned sample_headers 2 sec1 (some long_ip_a)) = some 1 := by
  decide

/-! ## C9 -/

/-- C9, as amended. From a fresh table and after any sequence of calls, made at
any times, in which no `add_ip_to_ban_list` was called for an identifier filed
under the key of `ip` (no added identifier has the same `strlcpy` copy as `ip`):
the sequence returns, `check_if_banned(ip)` returns 0 and
`remove_ip_from_ban_list(ip)` leaves the state unchanged. -/
theorem never_added_key_not_banned (H : Headers) (calls : List (Int × ban_call))
    (ip : List Nat) (later : Int) (hno : ∀ c ∈ calls, c.2.adds_key H ip = false) :
    ∃ sec1, run_calls H calls fresh_sec = some sec1 ∧
      check_if_banned H later sec1 (some ip) = some 0 ∧
      remove_ip_from_ban_list H sec1 (some ip) = some sec1 := by
  obtain ⟨sec1, db1, h1, h2, h3⟩ := run_calls_entries H
    (fun x => ban_entry_cmp x (lookup_key H ip) = false)
    (fun x e _ hip he => by
      have he1 : ban_entry_cmp e (lookup_key H ip) = false := he
      show ban_entry_cmp x (lookup_key H ip) = false
      rw [ban_entry_cmp_false_iff] at he1 ⊢
      rw [hip]; exact he1)
    calls
    (fun c hc ip1 a r t1 t2 hcall x hk => by
      have hne := adds_key_false H ip c.2 (hno c hc) ip1 a r t1 t2 hcall
      show ban_entry_cmp x (lookup_key H ip) = false
      rw [ban_entry_cmp_false_iff]
      simp only [lookup_key, c_str_strlcpy]
      rw [hk]; exact hne)
    fresh_sec htable_init rfl (fun x hx => by simp [htable.entries, htable_init] at hx)
  refine ⟨sec1, h1, ?_, ?_⟩
  · exact check_if_banned_zero_of_below H later sec1 db1 ip h2
      (fun x hx hc => by rw [h3 x hx] at hc; cases hc)
  · exact remove_ip_absent H sec1 db1 ip h2 ((ban_lookup_none_iff H db1 ip).2 h3)

/-- After three failed attempts of `10.0.0.6`, a query and a sweep, `10.0.0.5`,
never added, is not banned and clearing it changes nothing. -/
theorem never_added_key_not_banned_witness :
    ∃ sec1, run_calls sample_headers
        [(0, .add (some ip_10_0_0_6) 3 60 true true), (1, .check (some ip_10_0_0_6)),
          (2, .cleanup)] fresh_sec = some sec1 ∧
      check_if_banned sample_headers 3 sec1 (some ip_10_0_0_5) = some 0 ∧
      remove_ip_from_ban_list sample_headers sec1 (some ip_10_0_0_5) = some sec1 :=
  never_added_key_not_banned sample_headers
    [(0, .add (some ip_10_0_0_6) 3 60 true true), (1, .check (some ip_10_0_0_6)),
      (2, .cleanup)] ip_10_0_0_5 3 (by decide)

/-- C9 as stated fails for identifiers of 46 bytes or more: after three failed
attempts recorded for `long_ip_a` alone, `check_if_banned` returns 1 for
`long_ip_b`, a different string that was never passed to `add_ip_to_ban_list`,
and `remove_ip_from_ban_list` for `long_ip_b` changes the state. -/
theorem never_added_long_ip_banned :
    long_ip_a ≠ long_ip_b ∧
    (run_calls sample_headers [(0, .add (some long_ip_a) 3 60 true true)] fresh_sec).bind
      (fun sec1 => check_if_banned sample_headers 1 sec1 (some long_ip_b)) = some 1 ∧
    (run_calls sample_headers [(0, .add (some long_ip_a) 3 60 true true)] fresh_sec).bind
      (fun sec1 => remove_ip_from_ban_list sample_headers sec1 (some long_ip_b)) ≠
      run_calls sample_headers [(0, .add (some long_ip_a) 3 60 true true)] fresh_sec := by
  decide

/-! ## C10 -/

theorem first_valid_append_false (p : ban_entry_st → Bool) (l : List (Option ban_entry_st))
    (e1 : ban_entry_st) (off : Nat) (h : p e1 = false) :
    first_valid p (l ++ [some e1]) off = first_valid p l off := by
  induction l generalizing off with
  | nil => simp [first_valid, h]
  | cons s r ih =>
    cases s with
    | none =>
      show first_valid p (r ++ [some e1]) (off + 1) = first_valid p r (off + 1)
      exact ih _
    | some a =>
      show (if p a then some (off, a) else first_valid p (r ++ [some e1]) (off + 1)) =
        (if p a then some (off, a) else first_valid p r (off + 1))
      rw [ih]

theorem first_valid_replace_false (p : ban_entry_st → Bool)
    (pre post : List (Option ban_entry_st)) (e e1 : ban_entry_st) (off : Nat)
    (h : p e = false) (h1 : p e1 = false) :
    first_valid p (pre ++ some e1 :: post) off = first_valid p (pre ++ some e :: post) off := by
  induction pre generalizing off with
  | nil => simp [first_valid, h, h1]
  | cons s r ih =>
    cases s with
    | none =>
      show first_valid p (r ++ some e1 :: post) (off + 1) =
        first_valid p (r ++ some e :: post) (off + 1)
      exact ih _
    | some a =>
      show (if p a then some (off, a) else first_valid p (r ++ some e1 :: post) (off + 1)) =
        (if p a then some (off, a) else first_valid p (r ++ some e :: post) (off + 1))
      rw [ih]

/-- An entry filed under the key of `a` is not accepted for `b` when the keys of
`a` and `b` differ. -/
theorem cmp_other_key (H : Headers) (a b : List Nat) (x : ban_entry_st)
    (hab : strlcpy H.MAX_IP_STR a ≠ strlcpy H.MAX_IP_STR b)
    (hx : ban_entry_cmp x (lookup_key H a) = true) :
    ban_entry_cmp x (lookup_key H b) = false := by
  rw [ban_entry_cmp_key_iff] at hx
  rw [ban_entry_cmp_false_iff]
  simp only [lookup_key, c_str_strlcpy]
  rw [hx]; exact hab

theorem ban_lookup_store_other (H : Headers) (db : htable) (a b : List Nat) (slot : Nat)
    (e e1 : ban_entry_st) (hl : ban_lookup H db a = some (slot, e)) (hip : e1.ip = e.ip)
    (hab : strlcpy H.MAX_IP_STR a ≠ strlcpy H.MAX_IP_STR b) :
    ban_lookup H (htable_store db slot e1) b = ban_lookup H db b := by
  obtain ⟨pre, post, h1, h2, h3, -⟩ := ban_lookup_some_split H db a slot e hl
  have hc1 : ban_entry_cmp e1 (lookup_key H a) = true := by
    rw [ban_entry_cmp_iff] at h3 ⊢
    rw [hip]; exact h3
  rw [ban_lookup_eq, ban_lookup_eq]
  simp only [htable_store]
  rw [h1, h2, set_split]
  exact first_valid_replace_false _ pre post e e1 0 (cmp_other_key H a b e hab h3)
    (cmp_other_key H a b e1 hab hc1)

theorem check_if_banned_congr (H : Headers) (now : Int) (sec sec1 : sec_mod_st)
    (db db1 : htable) (b : List Nat) (hdb : sec.ban_db = .live db)
    (hdb1 : sec1.ban_db = .live db1) (hl : ban_lookup H db1 b = ban_lookup H db b) :
    check_if_banned H now sec1 (some b) = check_if_banned H now sec (some b) := by
  by_cases hip : b.headD 0 = 0
  · unfold check_if_banned
    rw [hdb, hdb1]
    simp only [hip, if_true]
  · rw [check_if_banned_live H now sec db b hdb hip,
      check_if_banned_live H now sec1 db1 b hdb1 hip, hl]

/-- C10, as amended. Per-identifier isolation under equality of keys: for two
identifiers `a` and `b` whose `strlcpy` copies differ, `add_ip_to_ban_list(a, ...)`
and `remove_ip_from_ban_list(a)` on a live table return and leave the lookup of
`b` (the presence of its entry, its slot and its fields) and the answer of
`check_if_banned(b)` at every time unchanged. -/
theorem other_key_unaffected (H : Headers) (now : Int) (talloc_ok htable_add_ok : Bool)
    (sec : sec_mod_st) (db : htable) (a b : List Nat) (attempts : Nat) (reset_time : Int)
    (hdb : sec.ban_db = .live db)
    (hab : strlcpy H.MAX_IP_STR a ≠ strlcpy H.MAX_IP_STR b) :
    (∃ sec1 db1, add_ip_to_ban_list H now talloc_ok htable_add_ok sec (some a) attempts
        reset_time = some sec1 ∧
      sec1.ban_db = .live db1 ∧ ban_lookup H db1 b = ban_lookup H db b ∧
      ∀ q : Int, check_if_banned H q sec1 (some b) = check_if_banned H q sec (some b)) ∧
    (∃ sec1 db1, remove_ip_from_ban_list H sec (some a) = some sec1 ∧
      sec1.ban_db = .live db1 ∧ ban_lookup H db1 b = ban_lookup H db b ∧
      ∀ q : Int, check_if_banned H q sec1 (some b) = check_if_banned H q sec (some b)) := by
  constructor
  · obtain ⟨sec1, h1, h2⟩ := add_ip_live_cases H now talloc_ok htable_add_ok sec db (some a)
      attempts reset_time hdb
    rcases h2 with h2 | ⟨ip1, hip1, hip, ⟨hl, h2⟩ | ⟨slot, e, hl, h2⟩⟩
    · exact ⟨sec1, db, h1, h2, rfl, fun q => check_if_banned_congr H q sec sec1 db db b hdb h2 rfl⟩
    · cases hip1
      have hlk : ban_lookup H
          ⟨db.table ++ [some ⟨strlcpy H.MAX_IP_STR a, attempts % UINT_MOD, reset_time⟩]⟩ b
          = ban_lookup H db b := by
        rw [ban_lookup_eq, ban_lookup_eq]
        exact first_valid_append_false _ _ _ _
          (cmp_other_key H a b _ hab (lookup_key_cmp H a _ _))
      exact ⟨sec1, _, h1, h2, hlk,
        fun q => check_if_banned_congr H q sec sec1 db _ b hdb h2 hlk⟩
    · cases hip1
      have hlk := ban_lookup_store_other H db a b slot e
        ⟨e.ip, ((if now > e.expires then 0 else e.failed_attempts) + attempts) % UINT_MOD,
          reset_time⟩ hl rfl hab
      exact ⟨sec1, _, h1, h2, hlk,
        fun q => check_if_banned_congr H q sec sec1 db _ b hdb h2 hlk⟩
  · rcases remove_ip_live_cases H sec db (some a) hdb with h | ⟨ip1, slot, e, hip1, hip, hl, h⟩
    · exact ⟨sec, db, h, hdb, rfl, fun q => rfl⟩
    · cases hip1
      have hlk := ban_lookup_store_other H db a b slot e ⟨e.ip, 0, 0⟩ hl rfl hab
      exact ⟨_, _, h, rfl, hlk,
        fun q => check_if_banned_congr H q sec _ db _ b hdb rfl hlk⟩

/-- Recording an attempt of `10.0.0.6` in `sample_sec`, and clearing it, leave the
entry and the ban of `10.0.0.5` as they are. -/
theorem other_key_unaffected_witness :
    (∃ sec1 db1, add_ip_to_ban_list sample_headers 1 true true sample_sec (some ip_10_0_0_6)
        7 90 = some sec1 ∧
      sec1.ban_db = .live db1 ∧
      ban_lookup sample_headers db1 ip_10_0_0_5 = ban_lookup sample_headers sample_db ip_10_0_0_5 ∧
      ∀ q : Int, check_if_banned sample_headers q sec1 (some ip_10_0_0_5) =
        check_if_banned sample_headers q sample_sec (some ip_10_0_0_5)) ∧
    (∃ sec1 db1, remove_ip_from_ban_list sample_headers sample_sec (some ip_10_0_0_6)
        = some sec1 ∧
      sec1.ban_db = .live db1 ∧
      ban_lookup sample_headers db1 ip_10_0_0_5 = ban_lookup sample_headers sample_db ip_10_0_0_5 ∧
      ∀ q : Int, check_if_banned sample_headers q sec1 (some ip_10_0_0_5) =
        check_if_banned sample_headers q sample_sec (some ip_10_0_0_5)) :=
  other_key_unaffected sample_headers 1 true true sample_sec sample_db ip_10_0_0_6 ip_10_0_0_5
    7 90 rfl (by decide)

/-- C10 as stated fails for identifiers of 46 bytes or more: `long_ip_a` and
`long_ip_b` differ as strings, yet in a table where `long_ip_b` is banned,
`remove_ip_from_ban_list(long_ip_a)` zeroes the entry of `long_ip_b` and turns
the answer of `check_if_banned(long_ip_b)` from 1 to 0, and
`add_ip_to_ban_list(long_ip_a, 1, 90)` raises its counter from 3 to 4. -/
theorem long_ip_not_isolated :
    long_ip_a ≠ long_ip_b ∧
    check_if_banned sample_headers 1 ⟨.live ⟨[some ⟨strlcpy 46 long_ip_b, 3, 60⟩]⟩, []⟩
      (some long_ip_b) = some 1 ∧
    (remove_ip_from_ban_list sample_headers ⟨.live ⟨[some ⟨strlcpy 46 long_ip_b, 3, 60⟩]⟩, []⟩
      (some long_ip_a)).bind (fun sec1 => check_if_banned sample_headers 1 sec1 (some long_ip_b))
      = some 0 ∧
    (add_ip_to_ban_list sample_headers 1 true true
      ⟨.live ⟨[some ⟨strlcpy 46 long_ip_b, 3, 60⟩]⟩, []⟩ (some long_ip_a) 1 90).map
      (fun sec1 => sec1.ban_db) = some (.live ⟨[some ⟨strlcpy 46 long_ip_b, 4, 90⟩]⟩) := by
  decide

/-! ### Invariants of sequences of calls -/

/-- The entries before and after a store through the pointer the lookup
returned. -/
theorem store_entries_split (H : Headers) (db : htable) (ip : List Nat) (slot : Nat)
    (e e1 : ban_entry_st) (hl : ban_lookup H db ip = some (slot, e)) :
    ∃ pre post : List ban_entry_st, db.entries = pre ++ e :: post ∧
      (htable_store db slot e1).entries = pre ++ e1 :: post := by
  obtain ⟨pre, post, h1, h2, -, -⟩ := ban_lookup_some_split H db ip slot e hl
  refine ⟨pre.filterMap id, post.filterMap id, ?_, ?_⟩
  · simp [htable.entries, h1, List.filterMap_append]
  · simp only [htable.entries, htable_store]
    rw [h1, h2, set_split]
    simp [List.filterMap_append]

theorem store_entries_ips (H : Headers) (db : htable) (ip : List Nat) (slot : Nat)
    (e e1 : ban_entry_st) (hl : ban_lookup H db ip = some (slot, e)) (hip : e1.ip = e.ip) :
    (htable_store db slot e1).entries.map (fun x => x.ip) = db.entries.map (fun x => x.ip) := by
  obtain ⟨pre, post, h1, h2⟩ := store_entries_split H db ip slot e e1 hl
  rw [h1, h2]
  simp [hip]

/-- One call on a live table returns and leaves a live table whose entries have
the same `ip` fields in the same order, or the old entries followed by one entry
for an identifier that had none, or (for the sweep) the old entries whose
deadline is after `now`. -/
theorem exec_keys_cases (H : Headers) (now : Int) (sec : sec_mod_st) (db : htable)
    (c : ban_call) (hdb : sec.ban_db = .live db) :
    ∃ sec1 db1, c.exec H now sec = some sec1 ∧ sec1.ban_db = .live db1 ∧
      (db1.entries.map (fun x => x.ip) = db.entries.map (fun x => x.ip) ∨
       (c ≠ .cleanup ∧ ∃ ip1 fa ex, ban_lookup H db ip1 = none ∧
          db1.entries = db.entries ++ [⟨strlcpy H.MAX_IP_STR ip1, fa, ex⟩]) ∨
       (c = .cleanup ∧ db1.entries = db.entries.filter (fun e => decide (e.expires > now)))) := by
  cases c with
  | add ip attempts reset_time talloc_ok htable_add_ok =>
    obtain ⟨sec1, h1, h2⟩ := add_ip_live_cases H now talloc_ok htable_add_ok sec db ip attempts
      reset_time hdb
    rcases h2 with h2 | ⟨ip1, rfl, hip, ⟨hl, h2⟩ | ⟨slot, e, hl, h2⟩⟩
    · exact ⟨sec1, db, h1, h2, Or.inl rfl⟩
    · refine ⟨sec1, _, h1, h2,
        Or.inr (Or.inl ⟨by simp, ip1, attempts % UINT_MOD, reset_time, hl, ?_⟩)⟩
      simp [htable.entries, List.filterMap_append]
    · exact ⟨sec1, _, h1, h2, Or.inl (store_entries_ips H db ip1 slot e _ hl rfl)⟩
  | remove ip =>
    rcases remove_ip_live_cases H sec db ip hdb with h | ⟨ip1, slot, e, rfl, hip, hl, h⟩
    · exact ⟨sec, db, h, hdb, Or.inl rfl⟩
    · exact ⟨_, _, h, rfl, Or.inl (store_entries_ips H db ip1 slot e _ hl rfl)⟩
  | check ip =>
    refine ⟨sec, db, ?_, hdb, Or.inl rfl⟩
    simp only [ban_call.exec]
    rcases check_if_banned_live_cases H now sec db ip hdb with h | h <;> rw [h] <;> rfl
  | cleanup =>
    exact ⟨_, ⟨sweep_slots now db.table⟩, cleanup_banned_entries_live now sec db hdb, rfl,
      Or.inr (Or.inr ⟨rfl, sweep_slots_entries now db.table⟩)⟩

/-- A property of tables that every permitted call preserves holds after every
sequence of permitted calls on a live table, and the sequence returns. -/
theorem run_calls_invariant (H : Headers) (P : htable → Prop) (ok : ban_call → Prop)
    (hstep : ∀ (now : Int) (c : ban_call) (sec sec1 : sec_mod_st) (db db1 : htable),
      ok c → sec.ban_db = .live db → P db → c.exec H now sec = some sec1 →
      sec1.ban_db = .live db1 → P db1)
    (calls : List (Int × ban_call)) :
    (∀ c ∈ calls, ok c.2) →
    ∀ (sec : sec_mod_st) (db : htable), sec.ban_db = .live db → P db →
      ∃ sec1 db1, run_calls H calls sec = some sec1 ∧ sec1.ban_db = .live db1 ∧ P db1 := by
  induction calls with
  | nil =>
    intro _ sec db hdb hp
    exact ⟨sec, db, rfl, hdb, hp⟩
  | cons c rest ih =>
    intro hok sec db hdb hp
    obtain ⟨now, c⟩ := c
    obtain ⟨sec1, db1, h1, h2, -⟩ := exec_live H now sec db c hdb
    have hp1 := hstep now c sec sec1 db db1 (hok (now, c) (by simp)) hdb hp h1 h2
    obtain ⟨sec2, db2, h4, h5, h6⟩ :=
      ih (fun c hc => hok c (List.mem_cons_of_mem _ hc)) sec1 db1 h2 hp1
    exact ⟨sec2, db2, by rw [run_calls_cons H now c rest sec sec1 h1]; exact h4, h5, h6⟩

/-! ## C11 -/

/-- C11. Entries are destroyed only by the sweep: on a live table, every sequence
of `add_ip_to_ban_list`, `remove_ip_from_ban_list` and `check_if_banned` calls,
made at any times and with any outcome of the allocations, returns and keeps
every entry: the `ip` fields of the entries afterwards are those before, in
order, followed by those of the new entries, so every identifier with an entry
keeps one and `sec_mod_ban_db_elems` does not shrink. The count is the number of
all entries, those with `now > expires` included. -/
theorem entries_survive_without_cleanup (H : Headers) (calls : List (Int × ban_call))
    (sec : sec_mod_st) (db : htable) (hdb : sec.ban_db = .live db)
    (hno : ∀ c ∈ calls, c.2 ≠ ban_call.cleanup) :
    ∃ sec1 db1, run_calls H calls sec = some sec1 ∧ sec1.ban_db = .live db1 ∧
      (∃ extra, db1.entries.map (fun x => x.ip) = db.entries.map (fun x => x.ip) ++ extra) ∧
      (∀ e ∈ db.entries, ∃ e1 ∈ db1.entries, e1.ip = e.ip) ∧
      sec_mod_ban_db_elems sec = some db.entries.length ∧
      sec_mod_ban_db_elems sec1 = some db1.entries.length ∧
      db.entries.length ≤ db1.entries.length := by
  obtain ⟨sec1, db1, h1, h2, extra, h3⟩ := run_calls_invariant H
    (fun d => ∃ extra, d.entries.map (fun x => x.ip) = db.entries.map (fun x => x.ip) ++ extra)
    (fun c => c ≠ ban_call.cleanup)
    (fun now c s s1 d d1 hok hd hp hexec hd1 => by
      obtain ⟨extra, hp⟩ := hp
      obtain ⟨s2, d2, g1, g2, g3⟩ := exec_keys_cases H now s d c hd
      rw [hexec] at g1
      cases g1
      rw [hd1] at g2
      cases g2
      rcases g3 with g3 | ⟨-, ip1, fa, ex, -, g3⟩ | ⟨g3, -⟩
      · exact ⟨extra, by rw [g3, hp]⟩
      · exact ⟨extra ++ [strlcpy H.MAX_IP_STR ip1], by rw [g3]; simp [hp]⟩
      · exact absurd g3 hok)
    calls hno sec db hdb ⟨[], by simp⟩
  refine ⟨sec1, db1, h1, h2, ⟨extra, h3⟩, ?_, ?_, ?_, ?_⟩
  · intro e he
    have : e.ip ∈ db1.entries.map (fun x => x.ip) := by
      rw [h3]
      exact List.mem_append_left _ (List.mem_map_of_mem _ he)
    obtain ⟨e1, he1, hip⟩ := List.mem_map.1 this
    exact ⟨e1, he1, hip⟩
  · simp [sec_mod_ban_db_elems, hdb, htable.elems, htable.entries]
  · simp [sec_mod_ban_db_elems, h2, htable.elems, htable.entries]
  · have := congrArg List.length h3
    simp only [List.length_map, List.length_append] at this
    omega

/-- In `sample_sec` at time 100 both deadlines (60 and 5) have passed; a query, a
clearing and a failed attempt leave both entries in place and counted. -/
theorem entries_survive_without_cleanup_witness :
    ∃ sec1 db1, run_calls sample_headers
        [(100, .check (some ip_10_0_0_5)), (100, .remove (some ip_10_0_0_5)),
          (100, .add (some ip_10_0_0_6) 1 160 true true)] sample_sec = some sec1 ∧
      sec1.ban_db = .live db1 ∧
      (∃ extra, db1.entries.map (fun x => x.ip) =
        sample_db.entries.map (fun x => x.ip) ++ extra) ∧
      (∀ e ∈ sample_db.entries, ∃ e1 ∈ db1.entries, e1.ip = e.ip) ∧
      sec_mod_ban_db_elems sample_sec = some sample_db.entries.length ∧
      sec_mod_ban_db_elems sec1 = some db1.entries.length ∧
      sample_db.entries.length ≤ db1.entries.length :=
  entries_survive_without_cleanup sample_headers
    [(100, .check (some ip_10_0_0_5)), (100, .remove (some ip_10_0_0_5)),
      (100, .add (some ip_10_0_0_6) 1 160 true true)] sample_sec sample_db rfl (by decide)

/-! ## C12 -/

theorem keys_unique_iff_nodup (db : htable) :
    keys_unique db ↔ (db.entries.map (fun e => c_str e.ip)).Nodup := by
  unfold keys_unique List.Nodup
  rw [List.pairwise_map]
  constructor
  · intro h
    exact h.imp (fun {a b} hab => (ban_entry_cmp_false_iff a b).1 hab)
  · intro h
    exact h.imp (fun {a b} hab => (ban_entry_cmp_false_iff a b).2 hab)

/-- Every call keeps the keys of a live table unique. -/
theorem exec_keys_unique (H : Headers) (now : Int) (c : ban_call) (sec sec1 : sec_mod_st)
    (db db1 : htable) (hdb : sec.ban_db = .live db) (hu : keys_unique db)
    (hexec : c.exec H now sec = some sec1) (hdb1 : sec1.ban_db = .live db1) :
    keys_unique db1 := by
  obtain ⟨s2, d2, g1, g2, g3⟩ := exec_keys_cases H now sec db c hdb
  rw [hexec] at g1
  cases g1
  rw [hdb1] at g2
  cases g2
  rcases g3 with g3 | ⟨-, ip1, fa, ex, hl, g3⟩ | ⟨-, g3⟩
  · rw [keys_unique_iff_nodup] at hu ⊢
    have h := congrArg (List.map c_str) g3
    simp only [List.map_map] at h
    have e1 : (db1.entries.map (fun e => c_str e.ip)) = List.map (c_str ∘ fun x => x.ip)
        db1.entries := rfl
    have e2 : (db.entries.map (fun e => c_str e.ip)) = List.map (c_str ∘ fun x => x.ip)
        db.entries := rfl
    rw [e1, h, ← e2]
    exact hu
  · unfold keys_unique at hu ⊢
    rw [g3, List.pairwise_append]
    refine ⟨hu, List.pairwise_singleton _ _, ?_⟩
    intro a ha b hb
    simp only [List.mem_singleton] at hb
    subst hb
    have := (ban_lookup_none_iff H db ip1).1 hl a ha
    rw [ban_entry_cmp_false_iff] at this ⊢
    simpa [lookup_key] using this
  · unfold keys_unique at hu ⊢
    rw [g3]
    exact hu.sublist (List.filter_sublist _)

/-- C12. Key uniqueness is an invariant: after a successful
`sec_mod_ban_db_init` and any sequence of `add_ip_to_ban_list`,
`remove_ip_from_ban_list`, `check_if_banned` and `cleanup_banned_entries` calls,
made at any times and with any outcome of the allocations, the sequence returns
and no two entries of the table have the same `ip` string, so
`sec_mod_ban_db_elems` is the number of distinct strings among the `ip` fields. -/
theorem keys_unique_reachable (H : Headers) (sec0 : sec_mod_st)
    (calls : List (Int × ban_call)) :
    ∃ sec1 db1, run_calls H calls (sec_mod_ban_db_init true sec0).1 = some sec1 ∧
      sec1.ban_db = .live db1 ∧
      keys_unique db1 ∧
      (db1.entries.map (fun e => c_str e.ip)).Nodup ∧
      sec_mod_ban_db_elems sec1 =
        some (db1.entries.map (fun e => c_str e.ip)).dedup.length := by
  obtain ⟨sec1, db1, h1, h2, h3⟩ := run_calls_invariant H keys_unique (fun _ => True)
    (fun now c s s1 d d1 _ hd hp hexec hd1 => exec_keys_unique H now c s s1 d d1 hd hp hexec hd1)
    calls (fun _ _ => trivial) (sec_mod_ban_db_init true sec0).1 htable_init rfl
    (by unfold keys_unique; simp [htable.entries, htable_init])
  have hnd := (keys_unique_iff_nodup db1).1 h3
  refine ⟨sec1, db1, h1, h2, h3, hnd, ?_⟩
  rw [List.Nodup.dedup hnd]
  simp [sec_mod_ban_db_elems, h2, htable.elems, htable.entries]

/-! ## C13 -/

/-- C13. Fail-open on allocation failure: when the identifier has no entry and
`talloc_zero` returns NULL or `htable_add` returns 0, `add_ip_to_ban_list`
returns and leaves the table as it was: same slots, same entries, same count,
still no entry for the identifier. The state is unchanged when `talloc_zero`
fails; when `htable_add` fails the only change is the log line
`could not add ban entry to hash table`. -/
theorem add_ip_alloc_failure_noop (H : Headers) (now : Int) (talloc_ok htable_add_ok : Bool)
    (sec : sec_mod_st) (db : htable) (ip : List Nat) (attempts : Nat) (reset_time : Int)
    (hdb : sec.ban_db = .live db) (hip : ip.headD 0 ≠ 0)
    (hl : ban_lookup H db ip = none) (hfail : talloc_ok = false ∨ htable_add_ok = false) :
    ∃ sec1, add_ip_to_ban_list H now talloc_ok htable_add_ok sec (some ip) attempts reset_time
        = some sec1 ∧
      sec1.ban_db = .live db ∧
      sec_mod_ban_db_elems sec1 = sec_mod_ban_db_elems sec ∧
      (talloc_ok = false → sec1 = sec) ∧
      (talloc_ok = true → sec1 = seclog sec LOG_INFO .could_not_add) := by
  have hl1 := hl
  unfold ban_lookup at hl1
  cases talloc_ok with
  | false =>
    refine ⟨sec, ?_, hdb, rfl, fun _ => rfl, fun h => absurd h (by decide)⟩
    unfold add_ip_to_ban_list
    rw [hdb]
    simp only [hip, if_false, hl1]
    rfl
  | true =>
    have h2 : htable_add_ok = false := by
      rcases hfail with h | h
      · cases h
      · exact h
    subst h2
    refine ⟨seclog sec LOG_INFO .could_not_add, ?_, hdb, ?_, fun h => absurd h (by decide),
      fun _ => rfl⟩
    · unfold add_ip_to_ban_list
      rw [hdb]
      simp only [hip, if_false, hl1]
      rfl
    · simp [sec_mod_ban_db_elems, seclog, hdb]

/-- On a fresh table, a first failed attempt of `10.0.0.5` whose `htable_add`
fails leaves the table empty. -/
theorem add_ip_alloc_failure_noop_witness :
    ∃ sec1, add_ip_to_ban_list sample_headers 0 true false fresh_sec (some ip_10_0_0_5) 3 60
        = some sec1 ∧
      sec1.ban_db = .live htable_init ∧
      sec_mod_ban_db_elems sec1 = sec_mod_ban_db_elems fresh_sec ∧
      (true = false → sec1 = fresh_sec) ∧
      (true = true → sec1 = seclog fresh_sec LOG_INFO .could_not_add) :=
  add_ip_alloc_failure_noop sample_headers 0 true false fresh_sec htable_init ip_10_0_0_5 3 60
    rfl (by decide) (by decide) (Or.inr rfl)

/-! ## C14 -/

/-- C14. An invalid identifier is ignored: for every state, `add_ip_to_ban_list`
and `remove_ip_from_ban_list` called with a null identifier or with an identifier
whose first byte is NUL return and leave the state unchanged, and
`check_if_banned` returns 0. -/
theorem invalid_identifier_ignored (H : Headers) (now : Int) (talloc_ok htable_add_ok : Bool)
    (sec : sec_mod_st) (ip : Option (List Nat)) (attempts : Nat) (reset_time : Int)
    (hip : ip = none ∨ ∃ s, ip = some s ∧ s.headD 0 = 0) :
    add_ip_to_ban_list H now talloc_ok htable_add_ok sec ip attempts reset_time = some sec ∧
    remove_ip_from_ban_list H sec ip = some sec ∧
    check_if_banned H now sec ip = some 0 := by
  rcases hip with rfl | ⟨s, rfl, hs⟩
  · unfold add_ip_to_ban_list remove_ip_from_ban_list check_if_banned
    cases sec.ban_db <;> simp
  · unfold add_ip_to_ban_list remove_ip_from_ban_list check_if_banned
    cases sec.ban_db <;> simp only [hs, if_true, and_self]

/-- The empty identifier is ignored in `sample_sec`. -/
theorem invalid_identifier_ignored_witness :
    add_ip_to_ban_list sample_headers 7 true true sample_sec (some []) 5 100 = some sample_sec ∧
    remove_ip_from_ban_list sample_headers sample_sec (some []) = some sample_sec ∧
    check_if_banned sample_headers 7 sample_sec (some []) = some 0 :=
  invalid_identifier_ignored sample_headers 7 true true sample_sec (some []) 5 100
    (Or.inr ⟨[], rfl, rfl⟩)

/-! ## C15 -/

theorem exec_check_live (H : Headers) (now : Int) (sec : sec_mod_st) (db : htable)
    (ip : Option (List Nat)) (hdb : sec.ban_db = .live db) :
    (ban_call.check ip).exec H now sec = some sec := by
  simp only [ban_call.exec]
  rcases check_if_banned_live_cases H now sec db ip hdb with h | h <;> rw [h] <;> rfl

theorem run_calls_replicate_check (H : Headers) (now : Int) (sec : sec_mod_st) (db : htable)
    (ip : Option (List Nat)) (hdb : sec.ban_db = .live db) (n : Nat) :
    run_calls H (List.replicate n (now, ban_call.check ip)) sec = some sec := by
  induction n with
  | zero => rfl
  | succ k ih =>
    rw [List.replicate_succ, run_calls_cons H now _ _ sec sec (exec_check_live H now sec db ip hdb)]
    exact ih

/-- C15. On a live table `check_if_banned` returns 0 or 1 and writes nothing: the
state after the call is the state before it, with every entry, its
`failed_attempts` and `expires` and the count, also for an entry whose deadline
has passed (no lazy reset); hence `n` calls at the same time leave the state as
it was and the answer after them is the answer before them. -/
theorem check_if_banned_no_side_effect (H : Headers) (now : Int) (sec : sec_mod_st)
    (db : htable) (ip : Option (List Nat)) (n : Nat) (hdb : sec.ban_db = .live db) :
    (check_if_banned H now sec ip = some 0 ∨ check_if_banned H now sec ip = some 1) ∧
    (ban_call.check ip).exec H now sec = some sec ∧
    ∃ sec1, run_calls H (List.replicate n (now, ban_call.check ip)) sec = some sec1 ∧
      sec1 = sec ∧
      sec_mod_ban_db_elems sec1 = sec_mod_ban_db_elems sec ∧
      check_if_banned H now sec1 ip = check_if_banned H now sec ip := by
  exact ⟨check_if_banned_live_cases H now sec db ip hdb, exec_check_live H now sec db ip hdb,
    sec, run_calls_replicate_check H now sec db ip hdb n, rfl, rfl, rfl⟩

/-- Three queries for `10.0.0.6` at time 100, after its deadline 5, leave
`sample_sec` as it is. -/
theorem check_if_banned_no_side_effect_witness :
    (check_if_banned sample_headers 100 sample_sec (some ip_10_0_0_6) = some 0 ∨
      check_if_banned sample_headers 100 sample_sec (some ip_10_0_0_6) = some 1) ∧
    (ban_call.check (some ip_10_0_0_6)).exec sample_headers 100 sample_sec = some sample_sec ∧
    ∃ sec1, run_calls sample_headers
        (List.replicate 3 (100, ban_call.check (some ip_10_0_0_6))) sample_sec = some sec1 ∧
      sec1 = sample_sec ∧
      sec_mod_ban_db_elems sec1 = sec_mod_ban_db_elems sample_sec ∧
      check_if_banned sample_headers 100 sec1 (some ip_10_0_0_6) =
        check_if_banned sample_headers 100 sample_sec (some ip_10_0_0_6) :=
  check_if_banned_no_side_effect sample_headers 100 sample_sec sample_db (some ip_10_0_0_6) 3 rfl

/-! ## C16 -/

/-- C16 fails on the code. The first `sec_mod_ban_db_deinit` on a live table
releases it and leaves `sec->ban_db` pointing at the released table, not NULL;
the second call passes the test `db != NULL` and acts on the released table, for
which the code has no defined result. -/
theorem deinit_twice_acts_on_released :
    (sec_mod_ban_db_deinit fresh_sec).map (fun sec1 => sec1.ban_db) = some .released ∧
    (sec_mod_ban_db_deinit fresh_sec).bind sec_mod_ban_db_deinit = none := by
  decide

/-! ## C17 -/

/-- C19. The ban status only decays with time: with no write in between and
`t1 <= t2`, if `check_if_banned` returns 0 at `t1` it returns 0 at `t2`, and if it
returns 1 at `t2` it returns 1 at `t1`. -/
theorem ban_only_decays (H : Headers) (sec : sec_mod_st) (ip : Option (List Nat))
    (t1 t2 : Int) (ht : t1 ≤ t2) :
    (check_if_banned H t1 sec ip = some 0 → check_if_banned H t2 sec ip = some 0) ∧
    (check_if_banned H t2 sec ip = some 1 → check_if_banned H t1 sec ip = some 1) := by
  cases hdb : sec.ban_db with
  | NULL =>
    have h : ∀ t, check_if_banned H t sec ip = some 0 := by
      intro t
      unfold check_if_banned
      rw [hdb]
      cases ip <;> rfl
    simp [h]
  | released =>
    cases ip with
    | none =>
      have h : ∀ t, check_if_banned H t sec none = some 0 := by
        intro t
        unfold check_if_banned
        rw [hdb]
      simp [h]
    | some ip1 =>
      have h : ∀ t, check_if_banned H t sec (some ip1) =
          if ip1.headD 0 = 0 then some 0 else none := by
        intro t
        unfold check_if_banned
        rw [hdb]
      rw [h t1, h t2]
      split <;> simp
  | live db =>
    cases ip with
    | none =>
      have h : ∀ t, check_if_banned H t sec none = some 0 := by
        intro t
        unfold check_if_banned
        rw [hdb]
      simp [h]
    | some ip1 =>
      by_cases hip : ip1.headD 0 = 0
      · have h : ∀ t, check_if_banned H t sec (some ip1) = some 0 := by
          intro t
          unfold check_if_banned
          rw [hdb]
          simp only [hip, if_true]
        simp [h]
      · rw [check_if_banned_live H t1 sec db ip1 hdb hip,
          check_if_banned_live H t2 sec db ip1 hdb hip]
        cases ban_lookup H db ip1 with
        | none => simp
        | some r =>
          obtain ⟨slot, e⟩ := r
          simp only
          by_cases h1 : t1 > e.expires
          · have h2 : t2 > e.expires := by omega
            simp [h1, h2]
          · by_cases h3 : e.failed_attempts ≥ H.MAX_PASSWORD_TRIES
            · simp only [h1, h3, if_true, if_false]
              simp
            · simp only [h1, h3, if_false, ite_self]
              simp

/-- In `sample_sec` the ban of `10.0.0.5` (deadline 60) is over at time 61 and
stays over at time 70. -/
theorem ban_only_decays_witness :
    (check_if_banned sample_headers 61 sample_sec (some ip_10_0_0_5) = some 0 →
      check_if_banned sample_headers 70 sample_sec (some ip_10_0_0_5) = some 0) ∧
    (check_if_banned sample_headers 70 sample_sec (some ip_10_0_0_5) = some 1 →
      check_if_banned sample_headers 61 sample_sec (some ip_10_0_0_5) = some 1) :=
  ban_only_decays sample_headers sample_sec (some ip_10_0_0_5) 61 70 (by decide)

/-! ## C20 -/

theorem sweep_slots_idem (now : Int) (slots : List (Option ban_entry_st)) :
    sweep_slots now (sweep_slots now slots) = sweep_slots now slots := by
  induction slots with
  | nil => rfl
  | cons s r ih =>
    unfold sweep_slots at ih ⊢
    cases s with
    | none => simpa using ih
    | some e =>
      by_cases hexp : now ≥ e.expires
      · simpa [hexp] using ih
      · simpa [hexp] using ih

/-- C20. The sweep is idempotent at a fixed time: on a live table,
`cleanup_banned_entries` at `now` returns a state on which a second
`cleanup_banned_entries` at `now` returns and changes nothing, and after the first
sweep every remaining entry has `expires > now`. -/
theorem cleanup_idempotent (now : Int) (sec : sec_mod_st) (db : htable)
    (hdb : sec.ban_db = .live db) :
    ∃ sec1 db1, cleanup_banned_entries now sec = some sec1 ∧ sec1.ban_db = .live db1 ∧
      cleanup_banned_entries now sec1 = some sec1 ∧
      (cleanup_banned_entries now sec).bind (cleanup_banned_entries now) =
        cleanup_banned_entries now sec ∧
      ∀ e ∈ db1.entries, e.expires > now := by
  have h1 := cleanup_banned_entries_live now sec db hdb
  have h2 := cleanup_banned_entries_live now
    { sec with ban_db := .live ⟨sweep_slots now db.table⟩ } ⟨sweep_slots now db.table⟩ rfl
  simp only [sweep_slots_idem] at h2
  refine ⟨_, ⟨sweep_slots now db.table⟩, h1, rfl, h2, ?_, ?_⟩
  · rw [h1]
    exact h2
  · intro e he
    simp only [htable.entries, sweep_slots_entries] at he
    simpa using (List.mem_filter.1 he).2

/-- Sweeping `sample_sec` at time 5 twice gives what sweeping it once gives. -/
theorem cleanup_idempotent_witness :
    ∃ sec1 db1, cleanup_banned_entries 5 sample_sec = some sec1 ∧ sec1.ban_db = .live db1 ∧
      cleanup_banned_entries 5 sec1 = some sec1 ∧
      (cleanup_banned_entries 5 sample_sec).bind (cleanup_banned_entries 5) =
        cleanup_banned_entries 5 sample_sec ∧
      ∀ e ∈ db1.entries, e.expires > 5 :=
  cleanup_idempotent 5 sample_sec sample_db rfl

end SecModBan
